import Mathlib

/-!
# Verification of the Compare-plugin comparison engine (src/Engine/Engine.cpp)

Shallow embedding of the compare engine. Pure functions of the C++ source are
translated into Lean functions; the stateful orchestrator (`runCompare`,
`markAllDiffs`) is modelled by explicit state passing with an `Except`-style
early exit for cancellation; 32-bit unsigned arithmetic is `Nat` with explicit
`% 2^32`. The generic sequence-diff engine (`diff.h`, `DiffCalc`) is not part
of the given sources and is modelled from the spec where noted.
-/

namespace CompareEngine

/-- Character classes (`charType` in Engine.cpp). -/
inductive CharType
  | SPACECHAR
  | ALPHANUMCHAR
  | OTHERCHAR
deriving DecidableEq, Repr

/-- Model of Win32 `IsCharAlphaNumericA`, restricted to ASCII letters and digits
(the source calls the locale-dependent Windows API; the ASCII case is the
portable core). -/
def isCharAlphaNumericA (c : Char) : Bool :=
  c.isAlpha || c.isDigit

/-- `getCharType` (Engine.cpp:168): space/tab, alphanumeric(+underscore), other. -/
def getCharType (letter : Char) : CharType :=
  if letter = ' ' || letter = '\t' then CharType.SPACECHAR
  else if isCharAlphaNumericA letter || letter = '_' then CharType.ALPHANUMCHAR
  else CharType.OTHERCHAR

/-- 2^32, the modulus of C `unsigned` arithmetic. -/
def UINT_MOD : Nat := 4294967296

/-- `ROL(v, 7)` (Engine.cpp:32): rotate a 32-bit value 7 bits to the left.
For `v < 2^32` the two shifted parts occupy disjoint bit ranges, so the C `|`
is addition. -/
def ROL7 (v : Nat) : Nat :=
  ((v % UINT_MOD) * 128) % UINT_MOD + (v % UINT_MOD) / 33554432

/-- `HASH(h, c)` (Engine.cpp:35): combine one character into the rolling hash. -/
def HASH (h c : Nat) : Nat := (c + ROL7 h) % UINT_MOD

/-- ASCII lower-casing of one character (`toLowerCase` helper used by the engine). -/
def toLowerA (c : Char) : Char :=
  if 'A' ≤ c ∧ c ≤ 'Z' then Char.ofNat (c.toNat + 32) else c

/-- User settings relevant to the engine (`UserSettings`). -/
structure UserSettings where
  IgnoreCase : Bool
  IgnoreSpaces : Bool
  DetectMoves : Bool
  DetectMovesLineMode : Bool
  OldFileViewIdIsMain : Bool
deriving DecidableEq, Repr

/-- Hash of one line's content (inner loop of `computeLineHashes`,
Engine.cpp:142-159): optional lower-casing, optional skipping of spaces/tabs,
rolling `HASH` combination; the empty line hashes to 0. -/
def lineHashOf (us : UserSettings) (s : String) : Nat :=
  (((if us.IgnoreCase then s.data.map toLowerA else s.data).filter
      (fun c => !(us.IgnoreSpaces && (c = ' ' || c = '\t')))).foldl
    (fun h c => HASH h c.toNat) 0)

/-- `Word` (Engine.cpp:68): class tag, 0-based line, character offset, length,
rolling hash. Word equality in the source compares hashes only. -/
structure Word where
  type : CharType
  line : Nat
  pos : Nat
  length : Nat
  hash : Nat
deriving DecidableEq, Repr

/-- Placeholder word used as a `getD` default for accesses the C++ code
performs only in bounds. -/
def dWord : Word := ⟨CharType.SPACECHAR, 0, 0, 0, 0⟩

/-- Whether a finished word is pushed (`getWords`, Engine.cpp:219/229):
space-class words are dropped when IgnoreSpaces is set. -/
def keepWord (ignoreSpaces : Bool) (w : Word) : Bool :=
  !ignoreSpaces || !(w.type = CharType.SPACECHAR)

/-- The left-to-right scan of `getWords` (Engine.cpp:207-230): extend the current
word while the character class repeats, otherwise emit it (subject to
`keepWord`) and start a new word. -/
def wordScan (ig : Bool) (ln : Nat) : List Char → Word → Nat → List Word
  | [], w, _ => if keepWord ig w then [w] else []
  | c :: rest, w, i =>
    let t := getCharType c
    if t = w.type then
      wordScan ig ln rest { w with length := w.length + 1, hash := HASH w.hash c.toNat } (i + 1)
    else
      (if keepWord ig w then [w] else []) ++
        wordScan ig ln rest { type := t, line := ln, pos := i, length := 1, hash := HASH 0 c.toNat } (i + 1)

/-- Words of one line (`getWords` per-line body, Engine.cpp:195-231). -/
def lineWords (us : UserSettings) (ln : Nat) (s : String) : List Word :=
  match (if us.IgnoreCase then s.data.map toLowerA else s.data) with
  | [] => []
  | c :: rest =>
    wordScan us.IgnoreSpaces ln rest
      { type := getCharType c, line := ln, pos := 0, length := 1, hash := HASH 0 c.toNat } 1

/-- `chunk_info` (Engine.cpp:100): a contiguous line range with per-line word
index ranges and the line mapping (`-1` sentinel modelled as `none`). -/
structure ChunkInfo where
  lineStart : Nat
  lineCount : Nat
  lineStartWordIdx : List Nat
  lineEndWordIdx : List Nat
  lineMappings : List (Option Nat)
  words : List Word
deriving DecidableEq, Repr

/-- `getWords` (Engine.cpp:180): build the word list of a chunk together with
each line's `[start, end)` word-index range. -/
def getWordsChunk (doc : List String) (us : UserSettings) (lineStart lineCount : Nat) :
    ChunkInfo :=
  let f := fun (acc : List Word × List Nat × List Nat) (ln : Nat) =>
    let ws := lineWords us ln (doc.getD (ln + lineStart) "")
    (acc.1 ++ ws, acc.2.1 ++ [acc.1.length], acc.2.2 ++ [acc.1.length + ws.length])
  let r := (List.range lineCount).foldl f ([], [], [])
  ⟨lineStart, lineCount, r.2.1, r.2.2, List.replicate lineCount none, r.1⟩

/-! ## The sequence diff engine

`DiffCalc` lives in `diff.h`, which is not among the given sources; only its
call sites are. It is modelled from the spec (§4.2): a minimal LCS edit script
partitioned into MATCH / ONLY-IN-FIRST / ONLY-IN-SECOND runs, matches taken as
early as possible. Run offsets follow the call sites' conventions: MATCH and
IN_1 runs carry first-sequence offsets, IN_2 runs carry second-sequence
offsets (Engine.cpp:442-467, 780-788). Two equal sequences produce the empty
script: the orchestrator maps an empty script to the MATCH terminal result
(Engine.cpp:753-754, spec §4.6 step 4), which is how identical documents are
reported as matching. Move detection is not modelled: per spec §4.2 it only
annotates covered lines with a move state and does not change the partition,
and all claims below are settled with moves disabled (all lines NOT_MOVED). -/

inductive DiffType
  | DIFF_MATCH
  | DIFF_IN_1
  | DIFF_IN_2
deriving DecidableEq, Repr

inductive MoveState
  | NOT_MOVED
  | MOVED
  | MOVED_MULTIPLE
deriving DecidableEq, Repr

/-- `section_t`: a character (or line) offset/length pair. -/
structure SectionT where
  off : Nat
  len : Nat
deriving DecidableEq, Repr

/-- A changed line: block-relative line index plus its `Change` spans. -/
structure ChangedLineT where
  line : Nat
  changes : List SectionT
deriving DecidableEq, Repr

/-- `diff_info` (modelled from spec §3 `DiffBlock`; `diff.h` is not in the
sources): kind, offset, length, per-index move states, changed-line detail and
the pair back-reference, stored as an index into the block list per the spec's
design note §9. -/
structure DiffInfo where
  type : DiffType
  off : Nat
  len : Nat
  moved : List MoveState
  changedLines : List ChangedLineT
  matchedDiff : Option Nat
deriving DecidableEq, Repr

def dBlock : DiffInfo := ⟨DiffType.DIFF_MATCH, 0, 0, [], [], none⟩

/-- `diff_info::isMoved`: move state of a covered index (NOT_MOVED default). -/
def DiffInfo.isMoved (d : DiffInfo) (i : Nat) : MoveState :=
  d.moved.getD i MoveState.NOT_MOVED

def mkBlock (t : DiffType) (o l : Nat) : DiffInfo := ⟨t, o, l, [], [], none⟩

/-- Length of the longest common subsequence of two hash sequences, by
structural recursion on a fuel bounded below by `a.length + b.length`. -/
def lcsLenF : Nat → List Nat → List Nat → Nat
  | 0, _, _ => 0
  | _ + 1, [], _ => 0
  | _ + 1, _ :: _, [] => 0
  | f + 1, a :: as, b :: bs =>
    if a = b then lcsLenF f as bs + 1
    else max (lcsLenF f as (b :: bs)) (lcsLenF f (a :: as) bs)

/-- Length of the longest common subsequence of two hash sequences. -/
def lcsLen (a b : List Nat) : Nat := lcsLenF (a.length + b.length) a b

/-- One element-wise edit operation. -/
inductive EditOp
  | M
  | D
  | I
deriving DecidableEq, Repr

/-- Minimal LCS edit script over hash sequences, matches as early as possible
(spec §4.2's left-biased tie break); fuel-indexed structural recursion. -/
def editOpsF : Nat → List Nat → List Nat → List EditOp
  | 0, _, _ => []
  | _ + 1, [], bs => bs.map (fun _ => EditOp.I)
  | _ + 1, a :: as, [] => (a :: as).map (fun _ => EditOp.D)
  | f + 1, a :: as, b :: bs =>
    if a = b then EditOp.M :: editOpsF f as bs
    else if lcsLen (a :: as) bs ≤ lcsLen as (b :: bs) then
      EditOp.D :: editOpsF f as (b :: bs)
    else EditOp.I :: editOpsF f (a :: as) bs

/-- Minimal LCS edit script over hash sequences. -/
def editOps (a b : List Nat) : List EditOp := editOpsF (a.length + b.length) a b

/-- Number of leading operations equal to `op`. -/
def leadCount (op : EditOp) : List EditOp → Nat
  | [] => 0
  | o :: r => if o = op then leadCount op r + 1 else 0

/-- Group an element-wise edit script into maximal runs, producing the
`diff_info` list in the call sites' offset conventions; fuel-indexed
structural recursion (fuel bounded below by the script length). -/
def opsRunsF : Nat → List EditOp → Nat → Nat → List DiffInfo
  | 0, _, _, _ => []
  | _ + 1, [], _, _ => []
  | f + 1, op :: rest, i, j =>
    let n := leadCount op rest + 1
    let tail := rest.drop (leadCount op rest)
    match op with
    | EditOp.M => mkBlock DiffType.DIFF_MATCH i n :: opsRunsF f tail (i + n) (j + n)
    | EditOp.D => mkBlock DiffType.DIFF_IN_1 i n :: opsRunsF f tail (i + n) j
    | EditOp.I => mkBlock DiffType.DIFF_IN_2 j n :: opsRunsF f tail i (j + n)

/-- Group an element-wise edit script into maximal runs. -/
def opsRuns (ops : List EditOp) (i j : Nat) : List DiffInfo :=
  opsRunsF ops.length ops i j

/-- Modelled from the spec: the generic sequence diff engine `DiffCalc`
(`diff.h`), absent from the given sources. Equal sequences yield the empty
script (required by the orchestrator's zero-blocks ⟹ MATCH rule,
Engine.cpp:753, and §4.6 step 4); otherwise the minimal LCS edit-script
partition of §4.2. -/
def diffCalc (a b : List Nat) : List DiffInfo :=
  if a = b then [] else opsRuns (editOps a b) 0 0

/-- Hash projection used wherever the source diffs `Word` sequences (word
equality is hash equality, Engine.cpp:78-96). -/
def wordHashes (ws : List Word) : List Nat := ws.map (fun w => w.hash)

/-! ## Sub-block offset locator (`getBestMatchingSubChunkOffset`, Engine.cpp:238-303) -/

/-- Count of matched alphanumeric-class words of an edit script, read off the
first diffed sequence (Engine.cpp:265-282). -/
def countAlnumMatches (w1 : List Word) (script : List DiffInfo) : Nat :=
  script.foldl
    (fun acc cd =>
      if cd.type = DiffType.DIFF_MATCH then
        acc + (List.range cd.len).countP
          (fun k => (w1.getD (cd.off + k) dWord).type = CharType.ALPHANUMCHAR)
      else acc)
    0

/-- Score of probing candidate offset `line` (Engine.cpp:250-282): diff the
shorter chunk's words against the longer chunk's words from `line` on (the
smaller sequence first, Engine.cpp:257-258) and count matched alphanumeric
words. -/
def probeScore (shorter longer : ChunkInfo) (line : Nat) : Nat :=
  let words2 := longer.words.drop (longer.lineStartWordIdx.getD line 0)
  let p := if words2.length < shorter.words.length then (words2, shorter.words)
           else (shorter.words, words2)
  countAlnumMatches p.1 (diffCalc (wordHashes p.1) (wordHashes p.2))

/-- Outcome of the locator's probe loop. `oob` records that the next probe
line is negative: the C++ indexes `lineStartWordIdx` with it, an out-of-bounds
vector access (the loop guard checks `line <= endLine` but never `0 <= line`).
`fuelOut` is the model's recursion bound, never hit by terminating runs. -/
inductive GbmOut
  | ok (off : Int)
  | oob (line : Int)
  | fuelOut
deriving DecidableEq, Repr

/-- The step-halving probe loop (Engine.cpp:247-300), carrying the list of
probed candidate lines. State: remaining fuel, current step, probe line,
best score so far, best offset so far (`-1` initially). -/
def gbmLoop (shorter longer : ChunkInfo) (endLine : Int) :
    Nat → Nat → Int → Nat → Int → List Int → GbmOut × List Int
  | 0, _, _, _, _, probes => (GbmOut.fuelOut, probes)
  | fuel + 1, step, line, best, bestOff, probes =>
    if line ≤ endLine ∧ line ≠ bestOff then
      if line < 0 then (GbmOut.oob line, probes)
      else
        let score := probeScore shorter longer line.toNat
        let probes' := probes ++ [line]
        let step' := step / 2 + step % 2
        if score < best then
          gbmLoop shorter longer endLine fuel step' (line - (step' : Int)) best bestOff probes'
        else if score = 0 then (GbmOut.ok 0, probes')
        else gbmLoop shorter longer endLine fuel step' (line + (step' : Int)) score line probes'
    else (GbmOut.ok bestOff, probes)

/-- `getBestMatchingSubChunkOffset` (Engine.cpp:238): candidate range is
`[0, longer.lineCount - shorter.lineCount]`; a non-positive range returns 0 at
once. -/
def getBestMatchingSubChunkOffset (shorter longer : ChunkInfo) : GbmOut × List Int :=
  let endLine : Int := (longer.lineCount : Int) - (shorter.lineCount : Int)
  if endLine ≤ 0 then (GbmOut.ok 0, [])
  else gbmLoop shorter longer endLine (4 * (endLine.toNat + 2) + 64) (endLine.toNat + 1) 0 0 (-1) []

/-! ## Block reconciler (`compareBlocks`, Engine.cpp:374-509) -/

/-- Alphanumeric word count per line of the second-side chunk
(`line2Len`, Engine.cpp:430-439). -/
def buildLine2Len (c2 : ChunkInfo) : List Nat :=
  (List.range c2.lineCount).map (fun line =>
    ((List.range' (c2.lineStartWordIdx.getD line 0)
        (c2.lineEndWordIdx.getD line 0 - c2.lineStartWordIdx.getD line 0)).countP
      (fun i => (c2.words.getD i dWord).type = CharType.ALPHANUMCHAR)))

/-- Increment one cell of the per-line match-count matrix. -/
def bumpCell (m : List (List Nat)) (r c : Nat) : List (List Nat) :=
  m.set r ((m.getD r []).set c ((m.getD r []).getD c 0 + 1))

/-- Attribute each MATCH run's alphanumeric words to their owning lines on
both sides (`lineWordsMatch`, Engine.cpp:441-468). `wordOffset` accumulates
the running insert/delete skew mapping first-side word indices to second-side
word indices. -/
def buildMatrix (c1 c2 : ChunkInfo) (sl1 sl2 : Nat) (script : List DiffInfo) :
    List (List Nat) :=
  let init : List (List Nat) := List.replicate c1.lineCount (List.replicate c2.lineCount 0)
  (script.foldl
    (fun (acc : List (List Nat) × Int) cd =>
      match cd.type with
      | DiffType.DIFF_IN_1 => (acc.1, acc.2 - (cd.len : Int))
      | DiffType.DIFF_IN_2 => (acc.1, acc.2 + (cd.len : Int))
      | DiffType.DIFF_MATCH =>
        ((List.range cd.len).foldl
          (fun m k =>
            let w1 := c1.words.getD (cd.off + k + c1.lineStartWordIdx.getD sl1 0) dWord
            if w1.type = CharType.ALPHANUMCHAR then
              let w2 := c2.words.getD
                (((cd.off + k + c2.lineStartWordIdx.getD sl2 0 : Nat) : Int) + acc.2).toNat dWord
              bumpCell m w1.line w2.line
            else m)
          acc.1, acc.2))
    (init, 0)).1

/-- One inner candidate scan of the selection loop (Engine.cpp:481-495):
starting at the current `bestMatchingLine2` cursor, pick the candidate with
maximal convergence `match*100/len2`, ties broken by larger `len2`.
Accumulator: `(maxConvergence, maxLine2Len, bestMatchingLine2)`; recursion on
the number of remaining candidates. -/
def scanLine (row : List Nat) (len2 : List Nat) (movedB : Nat → Bool) :
    Nat → Nat → Nat × Nat × Nat → Nat × Nat × Nat
  | _, 0, acc => acc
  | line2, rem + 1, acc =>
    let next :=
      if row.getD line2 0 = 0 ∨ len2.getD line2 0 = 0 ∨ movedB line2 then acc
      else
        let conv := row.getD line2 0 * 100 / len2.getD line2 0
        if acc.1 < conv ∨ (conv = acc.1 ∧ acc.2.1 < len2.getD line2 0) then
          (conv, len2.getD line2 0, line2)
        else acc
    scanLine row len2 movedB (line2 + 1) rem next

/-- State of the selection loop: the `bestMatchingLine2` cursor and both
sides' line mappings. -/
structure SelState where
  cursor : Nat
  map1 : List (Option Nat)
  map2 : List (Option Nat)
deriving DecidableEq, Repr

/-- One iteration of the selection loop (Engine.cpp:473-504) for line `line1`:
skip moved lines, scan candidates from the cursor, and record the mapping on
both sides when the best convergence reaches 50, advancing the cursor past the
chosen line. A rejected scan still leaves the cursor at the scan's best
candidate, as the source reuses `bestMatchingLine2` as both register and
cursor. -/
def selectStep (m : List (List Nat)) (len2 : List Nat) (movedA movedB : Nat → Bool)
    (count2 : Nat) (st : SelState) (line1 : Nat) : SelState :=
  if movedA line1 then st
  else
    let r := scanLine (m.getD line1 []) len2 movedB st.cursor (count2 - st.cursor)
      (0, 0, st.cursor)
    if 50 ≤ r.1 then
      ⟨r.2.2 + 1, st.map1.set line1 (some r.2.2), st.map2.set r.2.2 (some line1)⟩
    else ⟨r.2.2, st.map1, st.map2⟩

/-- The full selection loop (Engine.cpp:470-504): lines of the first side in
increasing order, mappings initially empty. -/
def selectMappings (m : List (List Nat)) (len2 : List Nat) (movedA movedB : Nat → Bool)
    (count1 count2 : Nat) : SelState :=
  (List.range count1).foldl (selectStep m len2 movedA movedB count2)
    ⟨0, List.replicate count1 none, List.replicate count2 none⟩

/-- Word slice of one line of a chunk (Engine.cpp:315-318). -/
def lineSlice (c : ChunkInfo) (line : Nat) : List Word :=
  (c.words.drop (c.lineStartWordIdx.getD line 0)).take
    (c.lineEndWordIdx.getD line 0 - c.lineStartWordIdx.getD line 0)

/-- A `Change` span of one ONLY-IN run (Engine.cpp:353-357): from the first
run-word's character offset to the last run-word's offset plus length. -/
def runSpan (ws : List Word) (off len : Nat) : SectionT :=
  ⟨(ws.getD off dWord).pos,
    (ws.getD (off + len - 1) dWord).pos - (ws.getD off dWord).pos
      + (ws.getD (off + len - 1) dWord).length⟩

/-- One iteration of `compareLines` (Engine.cpp:308-370) for line `line1` of
the first chunk: skip unmapped lines, diff the mapped pair's words with the
smaller sequence first (swapping both blocks' roles together,
Engine.cpp:329-334); a non-empty word diff appends one ChangedLine to each
side, with one Change span per ONLY-IN run. -/
def compareLinesStep (c1 c2 : ChunkInfo) (acc : List ChangedLineT × List ChangedLineT)
    (line1 : Nat) : List ChangedLineT × List ChangedLineT :=
  match c1.lineMappings.getD line1 none with
  | none => acc
  | some line2 =>
    let words1 := lineSlice c1 line1
    let words2 := lineSlice c2 line2
    let sw := words2.length < words1.length
    let w1 := if sw then words2 else words1
    let w2 := if sw then words1 else words2
    let ld := diffCalc (wordHashes w1) (wordHashes w2)
    if ld = [] then acc
    else
      let ch1 := (ld.filter (fun d => d.type = DiffType.DIFF_IN_1)).map
        (fun d => runSpan w1 d.off d.len)
      let ch2 := (ld.filter (fun d => d.type = DiffType.DIFF_IN_2)).map
        (fun d => runSpan w2 d.off d.len)
      let e1 : ChangedLineT := ⟨line1, if sw then ch2 else ch1⟩
      let e2 : ChangedLineT := ⟨line2, if sw then ch1 else ch2⟩
      (acc.1 ++ [e1], acc.2 ++ [e2])

/-- `compareLines` (Engine.cpp:306-371), returning the two changed-line lists
appended to `blockDiff1` and `blockDiff2` respectively. -/
def compareLinesFold (c1 c2 : ChunkInfo) : List ChangedLineT × List ChangedLineT :=
  (List.range c1.lineCount).foldl (compareLinesStep c1 c2) ([], [])

/-- All data produced by one `compareBlocks` run: the return flag, the updated
original-side blocks, the final (post-swap) side chunks with their mappings,
the match matrix and per-line word counts, and the post-swap side blocks. -/
structure CBData where
  ret : Bool
  bd1 : DiffInfo
  bd2 : DiffInfo
  pc1 : ChunkInfo
  pc2 : ChunkInfo
  sb1 : DiffInfo
  sb2 : DiffInfo
  m : List (List Nat)
  len2 : List Nat
deriving DecidableEq, Repr

/-- Whether a block's covered line is moved, as the selection loop tests it
(Engine.cpp:475, 483). -/
def movedOf (bd : DiffInfo) (l : Nat) : Bool :=
  !(bd.isMoved l = MoveState.NOT_MOVED)

/-- The word-level diff, matrix build, selection loop and line comparison of
`compareBlocks` (Engine.cpp:421-508), after both role swaps: `qc1`/`qc2` are
the two sides, `sl1`/`sl2` their start-line alignment offsets, `w1`/`w2` the
diffed word sequences, and `net` says whether the first side is the original
`bd1`. -/
def compareBlocksCore (bd1 bd2 : DiffInfo) (qc1 qc2 : ChunkInfo) (qb1 qb2 : DiffInfo)
    (sl1 sl2 : Nat) (w1 w2 : List Word) (net : Bool) : CBData :=
  let script := diffCalc (wordHashes w1) (wordHashes w2)
  if script = [] then
    ⟨false, bd1, bd2, qc1, qc2, qb1, qb2, [], []⟩
  else
    let len2 := buildLine2Len qc2
    let m := buildMatrix qc1 qc2 sl1 sl2 script
    let sel := selectMappings m len2 (movedOf qb1) (movedOf qb2) qc1.lineCount qc2.lineCount
    let qc1' := { qc1 with lineMappings := sel.map1 }
    let qc2' := { qc2 with lineMappings := sel.map2 }
    let cl := compareLinesFold qc1' qc2'
    let qb1' := { qb1 with changedLines := qb1.changedLines ++ cl.1 }
    let qb2' := { qb2 with changedLines := qb2.changedLines ++ cl.2 }
    let nb1 := { bd1 with changedLines := bd1.changedLines ++ (if net then cl.1 else cl.2) }
    let nb2 := { bd2 with changedLines := bd2.changedLines ++ (if net then cl.2 else cl.1) }
    ⟨true, nb1, nb2, qc1', qc2', qb1', qb2', m, len2⟩

/-- `compareBlocks` (Engine.cpp:374-509). `none` marks the undefined behaviour
reachable through the locator's unguarded negative probe (and the model's fuel
bound). The role swaps by line count (Engine.cpp:395-400) and by word count
(Engine.cpp:413-419) are value-level; `sw1`/`sw2` track which original block
each side denotes so the mutations land on the right block. -/
def compareBlocksData (doc1 doc2 : List String) (us : UserSettings)
    (bd1 bd2 : DiffInfo) : Option CBData :=
  let c1 := getWordsChunk doc1 us bd1.off bd1.len
  let c2 := getWordsChunk doc2 us bd2.off bd2.len
  let sw1 := decide (c2.lineCount < c1.lineCount)
  let pc1 := if sw1 then c2 else c1
  let pc2 := if sw1 then c1 else c2
  let pb1 := if sw1 then bd2 else bd1
  let pb2 := if sw1 then bd1 else bd2
  match (getBestMatchingSubChunkOffset pc1 pc2).1 with
  | GbmOut.oob _ => none
  | GbmOut.fuelOut => none
  | GbmOut.ok o =>
    let off2 := o.toNat
    let words2 := pc2.words.drop (pc2.lineStartWordIdx.getD off2 0)
    let sw2 := decide (words2.length < pc1.words.length)
    let qc1 := if sw2 then pc2 else pc1
    let qc2 := if sw2 then pc1 else pc2
    let qb1 := if sw2 then pb2 else pb1
    let qb2 := if sw2 then pb1 else pb2
    let sl1 := if sw2 then off2 else 0
    let sl2 := if sw2 then 0 else off2
    let w1 := if sw2 then words2 else pc1.words
    let w2 := if sw2 then pc1.words else words2
    -- net orientation: the first side is the original bd1 iff sw1 = sw2
    some (compareBlocksCore bd1 bd2 qc1 qc2 qb1 qb2 sl1 sl2 w1 w2 (sw1 == sw2))

/-! ## Orchestrator (`runCompare`, Engine.cpp:701-829, and `markAllDiffs`,
Engine.cpp:547-698)

The host editor state visible to the engine is modelled explicitly: the two
documents' line lists, the marker side effects as an event list, the
caller-owned alignment list, and the cooperative progress object as a
cancellation predicate over a running checkpoint counter (each
`IsCancelled`/`Advance`/`NextPhase` call consumes one index; `Advance` and
`NextPhase` abort on a cancelled response). -/

inductive ViewSide
  | main
  | sub
deriving DecidableEq, Repr

/-- Marker masks (`MARKER_MASK_*`); `noMask` is the C++ mask value 0. -/
inductive DiffMask
  | noMask
  | added
  | removed
  | changedMask
  | movedMask
  | movedMultipleMask
deriving DecidableEq, Repr

/-- `DocCmpInfo` (Engine.cpp:48). -/
structure DocCmpInfo where
  view : ViewSide
  sec : SectionT
  blockDiffMask : DiffMask
deriving DecidableEq, Repr

/-- `AlignmentViewData`. -/
structure AlignmentViewData where
  line : Nat
  diffMask : DiffMask
deriving DecidableEq, Repr

/-- `AlignmentPair`. -/
structure AlignmentPair where
  main : AlignmentViewData
  sub : AlignmentViewData
deriving DecidableEq, Repr

/-- Side effects on the host editor: `SCI_MARKERADDSET` and
`markTextAsChanged` calls. -/
inductive MarkEvent
  | markerAdd (view : ViewSide) (line : Nat) (mask : DiffMask)
  | textChanged (view : ViewSide) (pos : Nat) (len : Nat)
deriving DecidableEq, Repr

/-- Caller-visible state threaded through a compare invocation: both
documents' text, the caller-owned alignment list, the marker events performed
so far, and the number of progress checkpoints consumed. -/
structure OutState where
  mainText : List String
  subText : List String
  alignment : List AlignmentPair
  markers : List MarkEvent
  cnt : Nat
deriving DecidableEq, Repr

/-- `CompareResult` (COMPARE_ERROR arises only at the catch-all boundary of
`compareViews`, outside the engine). -/
inductive CompareResult
  | COMPARE_CANCELLED
  | COMPARE_MATCH
  | COMPARE_MISMATCH
  | COMPARE_ERROR
deriving DecidableEq, Repr

/-- Early exit of the orchestrator: cooperative cancellation (carrying the
caller-visible state at the abort point) or undefined behaviour reached. -/
inductive Halt
  | cancelled (st : OutState)
  | ub
deriving DecidableEq, Repr

/-- One aborting checkpoint (`progress->Advance()` / `progress->NextPhase()`):
consumes a checkpoint index; a cancelled response aborts. -/
def progChk (cancel : Nat → Bool) (st : OutState) : Except Halt OutState :=
  if cancel st.cnt then Except.error (Halt.cancelled { st with cnt := st.cnt + 1 })
  else Except.ok { st with cnt := st.cnt + 1 }

/-- Text of a view. -/
def textOf (st : OutState) (v : ViewSide) : List String :=
  match v with
  | ViewSide.main => st.mainText
  | ViewSide.sub => st.subText

/-- Character count of a document (`SCI_GETLENGTH`): line contents plus one
EOL character between consecutive lines. -/
def docCharCount : List String → Nat
  | [] => 0
  | ls => ls.foldl (fun a s => a + s.length) 0 + (ls.length - 1)

/-- Line count as `computeLineHashes` obtains it (Engine.cpp:124-127): 0 for
an empty document, the line count otherwise. -/
def docLineCount (text : List String) : Nat :=
  if docCharCount text = 0 then 0 else text.length

/-- Section defaulting (Engine.cpp:129-130): a zero length or a section
exceeding the document means "rest of document from off". -/
def adjustSec (sec : SectionT) (lineCount : Nat) : SectionT :=
  if sec.len = 0 ∨ lineCount < sec.off + sec.len then ⟨sec.off, lineCount - sec.off⟩
  else sec

/-- Character position of a line start (`SCI_POSITIONFROMLINE`), with 1-char
EOLs. -/
def posFromLine (text : List String) (line : Nat) : Nat :=
  (text.take line).foldl (fun a s => a + s.length + 1) 0

/-- The hash loop of `computeLineHashes` (Engine.cpp:134-162): every 500th
line consumes an `IsCancelled` checkpoint; a cancelled response returns the
empty hash vector (`none` here; the wrapper turns it into `[]` as the C++
does, and execution continues to the caller's next checkpoint). -/
def hashLoop (cancel : Nat → Bool) (us : UserSettings) (text : List String) (off : Nat) :
    Nat → Nat → OutState → Option (List Nat) × OutState
  | 0, _, st => (some [], st)
  | rem + 1, i, st =>
    if i % 500 = 0 then
      if cancel st.cnt then (none, { st with cnt := st.cnt + 1 })
      else
        let r := hashLoop cancel us text off rem (i + 1) { st with cnt := st.cnt + 1 }
        (r.1.map (fun hs => lineHashOf us (text.getD (i + off) "") :: hs), r.2)
    else
      let r := hashLoop cancel us text off rem (i + 1) st
      (r.1.map (fun hs => lineHashOf us (text.getD (i + off) "") :: hs), r.2)

/-- `computeLineHashes` (Engine.cpp:118-165): returns the hash list (empty
when cancelled mid-way) and the adjusted section. -/
def computeLineHashes (cancel : Nat → Bool) (us : UserSettings) (st : OutState)
    (doc : DocCmpInfo) : List Nat × SectionT × OutState :=
  let lc := docLineCount (textOf st doc.view)
  let sec := adjustSec doc.sec lc
  let r := hashLoop cancel us (textOf st doc.view) sec.off sec.len 0 st
  (r.1.getD [], sec, r.2)

/-- Cancellation-free per-section hashes (the pure value `computeLineHashes`
produces when never cancelled). -/
def sectionHashes (us : UserSettings) (text : List String) (sec : SectionT) : List Nat :=
  (List.range sec.len).map (fun i => lineHashOf us (text.getD (i + sec.off) ""))

/-- Line-diff blocks of an invocation before offset adjustment: hash both
sections, order the shorter hash sequence first (Engine.cpp:740-744), diff. -/
def lineDiffBlocks (mainText subText : List String) (mainSec subSec : SectionT)
    (us : UserSettings) : List DiffInfo :=
  let h1 := sectionHashes us mainText (adjustSec mainSec (docLineCount mainText))
  let h2 := sectionHashes us subText (adjustSec subSec (docLineCount subText))
  if h2.length < h1.length then diffCalc h2 h1 else diffCalc h1 h2

/-- `markSection` (Engine.cpp:512-524): one `SCI_MARKERADDSET` per covered
line, mask chosen by the line's move state. -/
def markSection (bd : DiffInfo) (doc : DocCmpInfo) : List MarkEvent :=
  (List.range doc.sec.len).map (fun k =>
    let i := doc.sec.off + k
    let mask :=
      if bd.isMoved i = MoveState.NOT_MOVED then doc.blockDiffMask
      else if bd.isMoved i = MoveState.MOVED then DiffMask.movedMask
      else DiffMask.movedMultipleMask
    MarkEvent.markerAdd doc.view (bd.off + i) mask)

/-- `markLineDiffs` (Engine.cpp:527-544): character-span change markers plus
the changed-line marker, for changed-line index `lineIdx` of a reconciled
pair. -/
def markLineDiffs (st : OutState) (v1 v2 : ViewSide) (bd partner : DiffInfo)
    (lineIdx : Nat) : List MarkEvent :=
  let cl1 := bd.changedLines.getD lineIdx ⟨0, []⟩
  let line1 := bd.off + cl1.line
  let pos1 := posFromLine (textOf st v1) line1
  let cl2 := partner.changedLines.getD lineIdx ⟨0, []⟩
  let line2 := partner.off + cl2.line
  let pos2 := posFromLine (textOf st v2) line2
  (cl1.changes.map (fun ch => MarkEvent.textChanged v1 (pos1 + ch.off) ch.len)
      ++ [MarkEvent.markerAdd v1 line1 DiffMask.changedMask])
    ++ (cl2.changes.map (fun ch => MarkEvent.textChanged v2 (pos2 + ch.off) ch.len)
      ++ [MarkEvent.markerAdd v2 line2 DiffMask.changedMask])

/-- Alignment cursor state of `markAllDiffs`: doc1/doc2 line counters and
masks (the source's `pMainAlignData`/`pSubAlignData` follow doc1/doc2), plus
the scratch sections the source mutates on `cmpInfo.doc1`/`doc2`. -/
structure ADState where
  d1Line : Nat
  d1Mask : DiffMask
  d2Line : Nat
  d2Mask : DiffMask
  sec1 : SectionT
  sec2 : SectionT
deriving DecidableEq, Repr

/-- Push the current alignment pair, placing doc1's data on the view it
belongs to (Engine.cpp:560-565). -/
def pushAlign (d1View : ViewSide) (a : ADState) (st : OutState) : OutState :=
  let p : AlignmentPair :=
    if d1View = ViewSide.main then ⟨⟨a.d1Line, a.d1Mask⟩, ⟨a.d2Line, a.d2Mask⟩⟩
    else ⟨⟨a.d2Line, a.d2Mask⟩, ⟨a.d1Line, a.d1Mask⟩⟩
  { st with alignment := st.alignment ++ [p] }

/-- The changed-lines sub-loop of `markAllDiffs` for a reconciled pair
(Engine.cpp:606-643): leading unchanged sub-range, the changed line pair, then
cursors past it. -/
def madPairLine (d1 d2 : DocCmpInfo) (bd partner : DiffInfo) (j : Nat)
    (acc : ADState × OutState) : ADState × OutState :=
  let a := acc.1
  let st := acc.2
  let len1 := (bd.changedLines.getD j ⟨0, []⟩).line - a.sec1.off
  let len2 := (partner.changedLines.getD j ⟨0, []⟩).line - a.sec2.off
  let a := { a with sec1 := ⟨a.sec1.off, len1⟩, sec2 := ⟨a.sec2.off, len2⟩ }
  let (a, st) :=
    if len1 ≠ 0 ∨ len2 ≠ 0 then
      let a := { a with d1Mask := d1.blockDiffMask, d2Mask := d2.blockDiffMask }
      (a, pushAlign d1.view a st)
    else (a, st)
  let (a, st) :=
    if len1 ≠ 0 then
      ({ a with d1Line := a.d1Line + len1 },
       { st with markers := st.markers ++ markSection bd { d1 with sec := a.sec1 } })
    else (a, st)
  let (a, st) :=
    if len2 ≠ 0 then
      ({ a with d2Line := a.d2Line + len2 },
       { st with markers := st.markers ++ markSection partner { d2 with sec := a.sec2 } })
    else (a, st)
  let a := { a with d1Mask := DiffMask.changedMask, d2Mask := DiffMask.changedMask }
  let st := pushAlign d1.view a st
  let st := { st with markers := st.markers ++ markLineDiffs st d1.view d2.view bd partner j }
  let a := { a with
    sec1 := ⟨(bd.changedLines.getD j ⟨0, []⟩).line + 1, a.sec1.len⟩,
    sec2 := ⟨(partner.changedLines.getD j ⟨0, []⟩).line + 1, a.sec2.len⟩,
    d1Line := a.d1Line + 1, d2Line := a.d2Line + 1 }
  (a, st)

/-- Processing of one block by `markAllDiffs` (Engine.cpp:570-691), returning
the updated cursors/state and whether the paired partner block is skipped
(the `++i` at Engine.cpp:668). -/
def madBlock (d1 d2 : DocCmpInfo) (blocks : List DiffInfo) (i : Nat)
    (a : ADState) (st : OutState) : ADState × OutState × Bool :=
  let bd := blocks.getD i dBlock
  match bd.type with
  | DiffType.DIFF_MATCH =>
    let a := { a with d1Mask := DiffMask.noMask, d2Mask := DiffMask.noMask }
    let st := pushAlign d1.view a st
    ({ a with d1Line := a.d1Line + bd.len, d2Line := a.d2Line + bd.len }, st, false)
  | DiffType.DIFF_IN_2 =>
    let a := { a with sec2 := ⟨0, bd.len⟩ }
    let st := { st with markers := st.markers ++ markSection bd { d2 with sec := ⟨0, bd.len⟩ } }
    let a := { a with d1Mask := DiffMask.noMask, d2Mask := d2.blockDiffMask }
    let st := pushAlign d1.view a st
    ({ a with d2Line := a.d2Line + bd.len }, st, false)
  | DiffType.DIFF_IN_1 =>
    match bd.matchedDiff with
    | some p =>
      let partner := blocks.getD p dBlock
      let a := { a with sec1 := ⟨0, a.sec1.len⟩, sec2 := ⟨0, a.sec2.len⟩ }
      let r := (List.range bd.changedLines.length).foldl
        (fun acc j => madPairLine d1 d2 bd partner j acc) (a, st)
      let a := r.1
      let st := r.2
      let len1 := bd.len - a.sec1.off
      let len2 := partner.len - a.sec2.off
      let a := { a with sec1 := ⟨a.sec1.off, len1⟩, sec2 := ⟨a.sec2.off, len2⟩ }
      let (a, st) :=
        if len1 ≠ 0 ∨ len2 ≠ 0 then
          let a := { a with d1Mask := d1.blockDiffMask, d2Mask := d2.blockDiffMask }
          (a, pushAlign d1.view a st)
        else (a, st)
      let (a, st) :=
        if len1 ≠ 0 then
          ({ a with d1Line := a.d1Line + len1 },
           { st with markers := st.markers ++ markSection bd { d1 with sec := a.sec1 } })
        else (a, st)
      let (a, st) :=
        if len2 ≠ 0 then
          ({ a with d2Line := a.d2Line + len2 },
           { st with markers := st.markers ++ markSection partner { d2 with sec := a.sec2 } })
        else (a, st)
      (a, st, true)
    | none =>
      let a := { a with sec1 := ⟨0, bd.len⟩ }
      let st := { st with markers := st.markers ++ markSection bd { d1 with sec := ⟨0, bd.len⟩ } }
      let a := { a with d1Mask := d1.blockDiffMask, d2Mask := DiffMask.noMask }
      let st := pushAlign d1.view a st
      ({ a with d1Line := a.d1Line + bd.len }, st, false)

/-- The block loop of `markAllDiffs` with its per-iteration `Advance`
checkpoint (Engine.cpp:570-692). Fuel is the block count: the index advances
by at least one per iteration. -/
def madLoop (cancel : Nat → Bool) (d1 d2 : DocCmpInfo) (blocks : List DiffInfo) :
    Nat → Nat → ADState → OutState → Except Halt (ADState × OutState)
  | 0, _, a, st => Except.ok (a, st)
  | fuel + 1, i, a, st =>
    if blocks.length ≤ i then Except.ok (a, st)
    else
      let r := madBlock d1 d2 blocks i a st
      let a := r.1
      let st := r.2.1
      let a2 := { a with d1Mask := DiffMask.noMask, d2Mask := DiffMask.noMask }
      let st := pushAlign d1.view a2 st
      match progChk cancel st with
      | Except.error e => Except.error e
      | Except.ok st => madLoop cancel d1 d2 blocks fuel (if r.2.2 then i + 2 else i + 1) a2 st

/-- `markAllDiffs` (Engine.cpp:547-698): clears the caller's alignment list,
walks the blocks pushing alignment pairs and markers, then a final `NextPhase`
checkpoint. -/
def markAllDiffs (cancel : Nat → Bool) (d1 d2 : DocCmpInfo) (blocks : List DiffInfo)
    (st : OutState) : Except Halt OutState :=
  let st := { st with alignment := [] }
  let a : ADState := ⟨d1.sec.off, DiffMask.noMask, d2.sec.off, DiffMask.noMask, d1.sec, d2.sec⟩
  match madLoop cancel d1 d2 blocks blocks.length 0 a st with
  | Except.error e => Except.error e
  | Except.ok r => progChk cancel r.2

/-- One iteration of the block-pairing loop (Engine.cpp:798-816): an ONLY_IN_B
block whose immediate predecessor is ONLY_IN_A gets reciprocal back-references
and the pair is reconciled by `compareBlocks`; `none` propagates the
reconciler's undefined behaviour. -/
def pairStep (tex1 tex2 : List String) (us : UserSettings) (blocks : List DiffInfo)
    (i : Nat) : Option (List DiffInfo) :=
  if (blocks.getD i dBlock).type = DiffType.DIFF_IN_2 ∧ 0 < i
      ∧ (blocks.getD (i - 1) dBlock).type = DiffType.DIFF_IN_1 then
    let b1 := { blocks.getD (i - 1) dBlock with matchedDiff := some i }
    let b2 := { blocks.getD i dBlock with matchedDiff := some (i - 1) }
    (compareBlocksData tex1 tex2 us b1 b2).map
      (fun d => (blocks.set (i - 1) d.bd1).set i d.bd2)
  else some blocks

/-- The block-pairing loop with its per-iteration `Advance` checkpoint
(Engine.cpp:797-820). -/
def pairLoop (cancel : Nat → Bool) (tex1 tex2 : List String) (us : UserSettings) :
    Nat → Nat → List DiffInfo → OutState → Except Halt (List DiffInfo × OutState)
  | 0, _, blocks, st => Except.ok (blocks, st)
  | fuel + 1, i, blocks, st =>
    match pairStep tex1 tex2 us blocks i with
    | none => Except.error Halt.ub
    | some blocks =>
      match progChk cancel st with
      | Except.error e => Except.error e
      | Except.ok st => pairLoop cancel tex1 tex2 us fuel (i + 1) blocks st

/-- Per-type block offset adjustment (Engine.cpp:780-789). -/
def adjustBlocks (off1 off2 : Nat) (blocks : List DiffInfo) : List DiffInfo :=
  if off1 ≠ 0 ∨ off2 ≠ 0 then
    blocks.map (fun bd =>
      match bd.type with
      | DiffType.DIFF_IN_2 => { bd with off := bd.off + off2 }
      | _ => { bd with off := bd.off + off1 })
  else blocks

/-- The tail of `runCompare` after hashing and role normalization
(Engine.cpp:746-828): line diff, zero-blocks MATCH exit, the blank-line
workaround, per-type offset adjustment, the pairing phase, and marking. -/
def runCompareBody (us : UserSettings) (cancel : Nat → Bool) (e1 e2 : DocCmpInfo)
    (g1 g2 : List Nat) (st0 : OutState) : Except Halt (CompareResult × OutState) :=
  let blocks := diffCalc g1 g2
  if blocks.length = 0 then Except.ok (CompareResult.COMPARE_MATCH, st0)
  else
    let cond := ¬(blocks.headD dBlock).type = DiffType.DIFF_MATCH
      ∧ (e1.sec.off = 0 ∨ e2.sec.off = 0)
    let st := if cond then
        { st0 with mainText := "" :: st0.mainText, subText := "" :: st0.subText }
      else st0
    let e1 := if cond then { e1 with sec := ⟨e1.sec.off + 1, e1.sec.len⟩ } else e1
    let e2 := if cond then { e2 with sec := ⟨e2.sec.off + 1, e2.sec.len⟩ } else e2
    let blocks := adjustBlocks e1.sec.off e2.sec.off blocks
    match progChk cancel st with
    | Except.error e => Except.error e
    | Except.ok st =>
      match pairLoop cancel (textOf st e1.view) (textOf st e2.view) us
          blocks.length 0 blocks st with
      | Except.error e => Except.error e
      | Except.ok r =>
        match progChk cancel r.2 with
        | Except.error e => Except.error e
        | Except.ok st =>
          match markAllDiffs cancel e1 e2 r.1 st with
          | Except.error e => Except.error e
          | Except.ok st => Except.ok (CompareResult.COMPARE_MISMATCH, st)

/-- Sequencing of two cancellable phases (C++ control flow: an aborted phase
returns immediately). -/
def andThenE {α β : Type} (x : Except Halt α) (f : α → Except Halt β) : Except Halt β :=
  match x with
  | Except.error e => Except.error e
  | Except.ok a => f a

/-- `runCompare` (Engine.cpp:701-829). The progress object is always present;
`Except.error` carries cancellation (wrapped back into `COMPARE_CANCELLED`
below) or reached undefined behaviour. -/
def runCompareE (mainText subText : List String) (mainSec subSec : SectionT)
    (us : UserSettings) (align0 : List AlignmentPair) (cancel : Nat → Bool) :
    Except Halt (CompareResult × OutState) :=
  let d1 : DocCmpInfo :=
    ⟨ViewSide.main, mainSec, if us.OldFileViewIdIsMain then DiffMask.removed else DiffMask.added⟩
  let d2 : DocCmpInfo :=
    ⟨ViewSide.sub, subSec, if us.OldFileViewIdIsMain then DiffMask.added else DiffMask.removed⟩
  let st : OutState := ⟨mainText, subText, align0, [], 0⟩
  let r1 := computeLineHashes cancel us st d1
  let d1 := { d1 with sec := r1.2.1 }
  andThenE (progChk cancel r1.2.2) (fun st =>
    let r2 := computeLineHashes cancel us st d2
    let d2 := { d2 with sec := r2.2.1 }
    andThenE (progChk cancel r2.2.2) (fun st =>
      let h1 := r1.1
      let h2 := r2.1
      let sw := h2.length < h1.length
      let g1 := if sw then h2 else h1
      let g2 := if sw then h1 else h2
      let e1 := if sw then d2 else d1
      let e2 := if sw then d1 else d2
      runCompareBody us cancel e1 e2 g1 g2 st))

/-- The compare invocation as the caller sees it: `some (result, state)`, with
cancellation folded into `COMPARE_CANCELLED`; `none` marks reached undefined
behaviour. -/
def runCompare (mainText subText : List String) (mainSec subSec : SectionT)
    (us : UserSettings) (align0 : List AlignmentPair) (cancel : Nat → Bool) :
    Option (CompareResult × OutState) :=
  match runCompareE mainText subText mainSec subSec us align0 cancel with
  | Except.ok r => some r
  | Except.error (Halt.cancelled st) => some (CompareResult.COMPARE_CANCELLED, st)
  | Except.error Halt.ub => none

/-! ## Concrete instances used by the claims -/

/-- Example settings: no folding, no move detection, main view is the old
file. -/
def exSettings : UserSettings := ⟨false, false, false, false, true⟩

/-- Example settings with IgnoreSpaces set. -/
def exSettingsIgnSp : UserSettings := ⟨false, true, false, false, true⟩

/-- The never-cancelled progress predicate. -/
def never : Nat → Bool := fun _ => false

/-- Shorter chunk of the locator's failing input: the single line `"x"`. -/
def c9shorter : ChunkInfo := getWordsChunk ["x"] exSettingsIgnSp 0 1

/-- Longer chunk of the locator's failing input: `"x"` followed by sixteen
`"b"` lines (candidate range `[0, 16]`). -/
def c9longer : ChunkInfo :=
  getWordsChunk ("x" :: List.replicate 16 "b") exSettingsIgnSp 0 17

/-- Default chunk, used only as a `getD` fallback. -/
def dChunk : ChunkInfo := ⟨0, 0, [], [], [], []⟩

/-- Default reconciliation data, used only as a `getD` fallback. -/
def dCBData : CBData := ⟨false, dBlock, dBlock, dChunk, dChunk, dBlock, dBlock, [], []⟩

/-- The deleted block of the convergence example: one line `"a b"`. -/
def c3bd1 : DiffInfo := ⟨DiffType.DIFF_IN_1, 0, 1, [], [], none⟩

/-- The inserted block of the convergence example: the three lines
`"a"`, `"b"`, `"c"`. -/
def c3bd2 : DiffInfo := ⟨DiffType.DIFF_IN_2, 0, 3, [], [], none⟩

/-- Reconciliation of `["a b"]` against `["a", "b", "c"]`. -/
def c3data : CBData :=
  (compareBlocksData ["a b"] ["a", "b", "c"] exSettingsIgnSp c3bd1 c3bd2).getD dCBData

/-- Cancellation predicate that latches at checkpoint 8 (inside the
marking/assembly phase of the `["a"]` vs `["b"]` compare). -/
def c2cancel : Nat → Bool := fun k => decide (8 ≤ k)

/-- The deleted block of the word-span example: the line `"foo bar"`. -/
def c7bd1 : DiffInfo := ⟨DiffType.DIFF_IN_1, 0, 1, [], [], none⟩

/-- The inserted block of the word-span example: the line `"foo baz"`. -/
def c7bd2 : DiffInfo := ⟨DiffType.DIFF_IN_2, 0, 1, [], [], none⟩

/-- Reconciliation of `["foo bar"]` against `["foo baz"]`. -/
def c7data : CBData :=
  (compareBlocksData ["foo bar"] ["foo baz"] exSettings c7bd1 c7bd2).getD dCBData

/-- A one-line chunk mapped to itself, used to witness the empty-word-diff
clause of the line comparator. -/
def c7chunk : ChunkInfo :=
  ⟨0, 1, [0], [1], [some 0], [⟨CharType.ALPHANUMCHAR, 0, 0, 3, 7⟩]⟩

/-- Concrete pairing-loop run used as the C5 witness: the adjacent
ONLY_IN_A/ONLY_IN_B pair of the `"foo bar"` / `"foo baz"` compare. -/
def c5run : Except Halt (List DiffInfo × OutState) :=
  pairLoop (fun _ => false) ["foo bar"] ["foo baz"] exSettings 2 0 [c7bd1, c7bd2]
    ⟨["foo bar"], ["foo baz"], [], [], 0⟩

/-- The block list the C5 witness run produces. -/
def c5blocks : List DiffInfo :=
  match c5run with
  | Except.ok r => r.1
  | Except.error _ => []

/-- The state the C5 witness run produces. -/
def c5st : OutState :=
  match c5run with
  | Except.ok r => r.2
  | Except.error _ => ⟨[], [], [], [], 0⟩

/-- Shorter chunk of the locator witness: the single line `"a b"`. -/
def c8shorter : ChunkInfo := getWordsChunk ["a b"] exSettingsIgnSp 0 1

/-- Longer chunk of the locator witness: the lines `"a"`, `"b"`, `"c"`. -/
def c8longer : ChunkInfo := getWordsChunk ["a", "b", "c"] exSettingsIgnSp 0 3

/-! # Claims -/

/-- C9: the spec says the step-halving probe loop of the sub-block offset
locator terminates (range exit, best-offset revisit, or zero-match exit). On
the chunk pair `["x"]` vs `["x", "b", ..., "b"]` (17 lines) the probes go
0, 9, 4, 1 and the next probe line is `1 - 2 = -1`: the loop guard
(Engine.cpp:248) never checks the lower bound, so the C++ indexes
`lineStartWordIdx[-1]` out of bounds instead of terminating. -/
theorem c9_probe_leaves_range_below :
    getBestMatchingSubChunkOffset c9shorter c9longer
      = (GbmOut.oob (-1), [0, 9, 4, 1]) := by decide

/-- C1 counterexample: on the identical pair `["x"]`/`["x"]` the line diff
produces zero blocks, not "exactly one MATCH block covering the whole
length", while the terminal result is indeed MATCH — the orchestrator maps
the empty block list to MATCH (Engine.cpp:753). -/
theorem c1_counterexample :
    (lineDiffBlocks ["x"] ["x"] ⟨0, 0⟩ ⟨0, 0⟩ exSettings).length = 0 ∧
    ¬ (lineDiffBlocks ["x"] ["x"] ⟨0, 0⟩ ⟨0, 0⟩ exSettings).length = 1 ∧
    (runCompare ["x"] ["x"] ⟨0, 0⟩ ⟨0, 0⟩ exSettings [] never).map Prod.fst
      = some CompareResult.COMPARE_MATCH := by decide

/-- C2 counterexample: comparing `["a"]` with `["b"]` under a cancellation
predicate that latches at checkpoint 8 (an `Advance` inside `markAllDiffs`)
returns CANCELLED, yet two alignment entries remain in the caller's output
list and two marker side effects remain on the documents: partially built
output is not discarded. -/
theorem c2_counterexample :
    (runCompare ["a"] ["b"] ⟨0, 0⟩ ⟨0, 0⟩ exSettings [] c2cancel).map
        (fun r => (r.1, r.2.alignment.length, r.2.markers.length))
      = some (CompareResult.COMPARE_CANCELLED, 2, 2) ∧ ¬ (2 = 0) := by decide

/-- C3 counterexample: reconciling `["a b"]` against `["a", "b", "c"]`, the
pair (line 0, line 1) has convergence `1 * 100 / 1 = 100 ≥ 50` yet is
recorded on neither side's `lineMapping` (line 0 was mapped to line 0 and the
forward cursor precludes a second mapping of line 0): convergence ≥ 50 does
not imply the pair is recorded, refuting the "if and only if". -/
theorem c3_counterexample :
    50 ≤ ((c3data.m.getD 0 []).getD 1 0) * 100 / (c3data.len2.getD 1 0) ∧
    c3data.pc1.lineMappings.getD 0 none = some 0 ∧
    ¬ c3data.pc1.lineMappings.getD 0 none = some 1 ∧
    c3data.pc2.lineMappings.getD 1 none = none := by decide

/-- C6 counterexample: comparing `["a"]` with `["b"]` (first block not MATCH,
section offsets 0) modifies both documents' text: a blank line is inserted at
the beginning of each (the Scintilla annotation workaround,
Engine.cpp:756-778). -/
theorem c6_counterexample :
    (runCompare ["a"] ["b"] ⟨0, 0⟩ ⟨0, 0⟩ exSettings [] never).map
        (fun r => (r.2.mainText, r.2.subText)) = some (["", "a"], ["", "b"]) ∧
    ¬ ((["", "a"] : List String) = ["a"]) := by decide

/-! ## List helper lemmas -/

theorem getD_of_length_le {α : Type} (d : α) :
    ∀ (l : List α) (i : Nat), l.length ≤ i → l.getD i d = d := by
  intro l
  induction l with
  | nil => intro i _; cases i <;> rfl
  | cons x xs ih =>
    intro i h
    cases i with
    | zero => simp at h
    | succ n =>
      simp only [List.getD_cons_succ]
      exact ih n (by simpa using h)

theorem getD_replicate {α : Type} (d : α) :
    ∀ (n i : Nat), (List.replicate n d).getD i d = d := by
  intro n
  induction n with
  | zero => intro i; cases i <;> rfl
  | succ m ih =>
    intro i
    cases i with
    | zero => rfl
    | succ k =>
      rw [List.replicate, List.getD_cons_succ]
      exact ih k

theorem set_of_length_le {α : Type} :
    ∀ (l : List α) (i : Nat) (v : α), l.length ≤ i → l.set i v = l := by
  intro l
  induction l with
  | nil => intro i v _; cases i <;> rfl
  | cons x xs ih =>
    intro i v h
    cases i with
    | zero => simp at h
    | succ n => simpa [List.set] using ih n v (by simpa using h)

theorem getD_set_self {α : Type} (d : α) :
    ∀ (l : List α) (i : Nat) (v : α), i < l.length → (l.set i v).getD i d = v := by
  intro l
  induction l with
  | nil => intro i v h; simp at h
  | cons x xs ih =>
    intro i v h
    cases i with
    | zero => rfl
    | succ n => simpa [List.set, List.getD_cons_succ] using ih n v (by simpa using h)

theorem getD_set_ne {α : Type} (d : α) :
    ∀ (l : List α) (i j : Nat) (v : α), ¬ i = j → (l.set i v).getD j d = l.getD j d := by
  intro l
  induction l with
  | nil => intro i j v _; cases i <;> rfl
  | cons x xs ih =>
    intro i j v h
    cases i with
    | zero =>
      cases j with
      | zero => exact absurd rfl h
      | succ k => rfl
    | succ n =>
      cases j with
      | zero => rfl
      | succ k =>
        simpa [List.set, List.getD_cons_succ] using ih n k v (fun e => h (by omega))

/-! ## The candidate scan and the selection loop -/

/-- The candidate scan keeps its accumulator either untouched (`(0, 0, b0)`)
or holding a candidate in `[b0, hi)` whose convergence it records. -/
theorem scanLine_inv (row len2 : List Nat) (movedB : Nat → Bool) (hi b0 : Nat) :
    ∀ (rem line2 : Nat) (acc : Nat × Nat × Nat),
      line2 + rem ≤ hi → b0 ≤ line2 →
      ((acc.1 = (row.getD acc.2.2 0) * 100 / len2.getD acc.2.2 0 ∧ b0 ≤ acc.2.2 ∧ acc.2.2 < hi)
        ∨ acc = (0, 0, b0)) →
      ((scanLine row len2 movedB line2 rem acc).1
          = (row.getD (scanLine row len2 movedB line2 rem acc).2.2 0) * 100
            / len2.getD (scanLine row len2 movedB line2 rem acc).2.2 0
        ∧ b0 ≤ (scanLine row len2 movedB line2 rem acc).2.2
        ∧ (scanLine row len2 movedB line2 rem acc).2.2 < hi)
      ∨ scanLine row len2 movedB line2 rem acc = (0, 0, b0) := by
  intro rem
  induction rem with
  | zero => intro line2 acc _ _ hacc; simpa [scanLine] using hacc
  | succ r ih =>
    intro line2 acc hle hb0 hacc
    simp only [scanLine]
    apply ih (line2 + 1) _ (by omega) (by omega)
    split
    · exact hacc
    · split
      · refine Or.inl ⟨rfl, hb0, ?_⟩
        show line2 < hi
        omega
      · exact hacc

/-- Invariant bundle of the selection loop (Engine.cpp:470-504): accepted
mappings lie below the cursor, have convergence at least 50 and are recorded
reciprocally on both sides; unprocessed lines are unmapped and in range. -/
theorem selectMappings_fold_inv (m : List (List Nat)) (len2 : List Nat)
    (movedA movedB : Nat → Bool) (count2 : Nat) :
    ∀ (l : List Nat) (st : SelState),
      l.Nodup →
      st.map2.length = count2 →
      st.cursor ≤ count2 →
      (∀ la b, st.map1.getD la none = some b →
        b < st.cursor
        ∧ 50 ≤ (m.getD la []).getD b 0 * 100 / len2.getD b 0
        ∧ st.map2.getD b none = some la) →
      (∀ b la, st.map2.getD b none = some la → st.map1.getD la none = some b) →
      (∀ la, la ∈ l → st.map1.getD la none = none ∧ la < st.map1.length) →
      (∀ la b, (l.foldl (selectStep m len2 movedA movedB count2) st).map1.getD la none = some b →
        50 ≤ (m.getD la []).getD b 0 * 100 / len2.getD b 0
        ∧ (l.foldl (selectStep m len2 movedA movedB count2) st).map2.getD b none = some la)
      ∧ (∀ b la, (l.foldl (selectStep m len2 movedA movedB count2) st).map2.getD b none = some la →
          (l.foldl (selectStep m len2 movedA movedB count2) st).map1.getD la none = some b) := by
  intro l
  induction l with
  | nil =>
    intro st _ _ _ h3 h4 _
    refine ⟨fun la b h => ⟨(h3 la b h).2.1, (h3 la b h).2.2⟩, fun b la h => h4 b la h⟩
  | cons x l' ih =>
    intro st hnd hlen2 hcur h3 h4 h5
    have hxl' : ¬ x ∈ l' := (List.nodup_cons.mp hnd).1
    have hnd' : l'.Nodup := (List.nodup_cons.mp hnd).2
    have hx1 : st.map1.getD x none = none := (h5 x (List.mem_cons_self _ _)).1
    have hxlen : x < st.map1.length := (h5 x (List.mem_cons_self _ _)).2
    simp only [List.foldl_cons]
    by_cases hmov : movedA x = true
    · have hstep : selectStep m len2 movedA movedB count2 st x = st := by
        simp [selectStep, hmov]
      rw [hstep]
      exact ih _ hnd' hlen2 hcur h3 h4 (fun la hla => h5 la (List.mem_cons_of_mem _ hla))
    · have hscan := scanLine_inv (m.getD x []) len2 movedB count2 st.cursor
        (count2 - st.cursor) st.cursor (0, 0, st.cursor) (by omega) (le_refl _) (Or.inr rfl)
      set r := scanLine (m.getD x []) len2 movedB st.cursor (count2 - st.cursor)
        (0, 0, st.cursor) with hr
      by_cases hacc : 50 ≤ r.1
      · -- accepted: the mapping is recorded on both sides, cursor moves past it
        have hrL : r.1 = ((m.getD x []).getD r.2.2 0) * 100 / len2.getD r.2.2 0
            ∧ st.cursor ≤ r.2.2 ∧ r.2.2 < count2 := by
          rcases hscan with h | h
          · exact h
          · rw [h] at hacc; omega
        have hstep : selectStep m len2 movedA movedB count2 st x
            = ⟨r.2.2 + 1, st.map1.set x (some r.2.2), st.map2.set r.2.2 (some x)⟩ := by
          simp only [selectStep]
          rw [if_neg hmov, ← hr, if_pos hacc]
        rw [hstep]
        apply ih _ hnd'
        · show (st.map2.set r.2.2 (some x)).length = count2
          rw [List.length_set]
          exact hlen2
        · show r.2.2 + 1 ≤ count2
          omega
        · intro la b hget
          by_cases hla : la = x
          · subst hla
            replace hget : (st.map1.set la (some r.2.2)).getD la none = some b := hget
            rw [getD_set_self none _ _ _ hxlen] at hget
            cases hget
            refine ⟨?_, by rw [← hrL.1]; exact hacc, ?_⟩
            · show r.2.2 < r.2.2 + 1
              omega
            · show (st.map2.set r.2.2 (some la)).getD r.2.2 none = some la
              rw [getD_set_self none _ _ _ (by omega : r.2.2 < st.map2.length)]
          · replace hget : (st.map1.set x (some r.2.2)).getD la none = some b := hget
            rw [getD_set_ne none _ _ _ _ (fun e => hla e.symm)] at hget
            obtain ⟨hb, hconv, hmap2⟩ := h3 la b hget
            refine ⟨?_, hconv, ?_⟩
            · show b < r.2.2 + 1
              omega
            · show (st.map2.set r.2.2 (some x)).getD b none = some la
              rw [getD_set_ne none _ _ _ _ (by omega)]
              exact hmap2
        · intro b la hget
          replace hget : (st.map2.set r.2.2 (some x)).getD b none = some la := hget
          by_cases hb : b = r.2.2
          · subst hb
            rw [getD_set_self none _ _ _ (by omega : r.2.2 < st.map2.length)] at hget
            cases hget
            show (st.map1.set x (some r.2.2)).getD x none = some r.2.2
            rw [getD_set_self none _ _ _ hxlen]
          · rw [getD_set_ne none _ _ _ _ (fun e => hb e.symm)] at hget
            have hold := h4 b la hget
            by_cases hla : la = x
            · subst hla
              rw [hx1] at hold
              cases hold
            · show (st.map1.set x (some r.2.2)).getD la none = some b
              rw [getD_set_ne none _ _ _ _ (fun e => hla e.symm)]
              exact hold
        · intro la hla
          constructor
          · show (st.map1.set x (some r.2.2)).getD la none = none
            rw [getD_set_ne none _ _ _ _ (fun e => hxl' (by rw [e]; exact hla))]
            exact (h5 la (List.mem_cons_of_mem _ hla)).1
          · show la < (st.map1.set x (some r.2.2)).length
            rw [List.length_set]
            exact (h5 la (List.mem_cons_of_mem _ hla)).2
      · -- rejected: only the cursor moves (to the scan's best candidate)
        have hstep : selectStep m len2 movedA movedB count2 st x
            = ⟨r.2.2, st.map1, st.map2⟩ := by
          simp only [selectStep]
          rw [if_neg hmov, ← hr, if_neg hacc]
        rw [hstep]
        have hcr : st.cursor ≤ r.2.2 ∧ r.2.2 ≤ count2 := by
          rcases hscan with h | h
          · exact ⟨h.2.1, by omega⟩
          · rw [h]; exact ⟨le_refl _, hcur⟩
        refine ih ⟨r.2.2, st.map1, st.map2⟩ hnd' hlen2 hcr.2 ?_ h4
          (fun la hla => h5 la (List.mem_cons_of_mem _ hla))
        intro la b hget
        obtain ⟨hb, hconv, hmap2⟩ := h3 la b hget
        refine ⟨?_, hconv, hmap2⟩
        show b < r.2.2
        omega

/-- The selection loop's final mappings: every recorded pair has convergence
at least 50 and the two sides' mappings are mutually inverse. -/
theorem selectMappings_spec (m : List (List Nat)) (len2 : List Nat)
    (movedA movedB : Nat → Bool) (count1 count2 : Nat) :
    (∀ la b,
      (selectMappings m len2 movedA movedB count1 count2).map1.getD la none = some b →
        50 ≤ (m.getD la []).getD b 0 * 100 / len2.getD b 0
        ∧ (selectMappings m len2 movedA movedB count1 count2).map2.getD b none = some la)
    ∧ (∀ b la,
      (selectMappings m len2 movedA movedB count1 count2).map2.getD b none = some la →
        (selectMappings m len2 movedA movedB count1 count2).map1.getD la none = some b) := by
  refine selectMappings_fold_inv m len2 movedA movedB count2 (List.range count1)
    ⟨0, List.replicate count1 none, List.replicate count2 none⟩
    (List.nodup_range _) (by simp) (Nat.zero_le _) ?_ ?_ ?_
  · intro la b h
    rw [getD_replicate none count1 la] at h
    cases h
  · intro b la h
    rw [getD_replicate none count2 b] at h
    cases h
  · intro la hla
    exact ⟨getD_replicate none count1 la, by simpa using List.mem_range.mp hla⟩

/-- A chunk starts with all lines unmapped. -/
theorem getWordsChunk_lineMappings (doc : List String) (us : UserSettings)
    (lineStart lineCount : Nat) :
    (getWordsChunk doc us lineStart lineCount).lineMappings
      = List.replicate lineCount none := rfl

/-- An `if` between two chunks with untouched mappings has untouched
mappings. -/
theorem ite_chunk_replicate (c : Prop) [Decidable c] (a b : ChunkInfo)
    (ha : ∃ n, a.lineMappings = List.replicate n (none : Option Nat))
    (hb : ∃ n, b.lineMappings = List.replicate n (none : Option Nat)) :
    ∃ n, (if c then a else b).lineMappings = List.replicate n (none : Option Nat) := by
  split
  · exact ha
  · exact hb

/-- Inversion of `compareBlocksCore`: starting from untouched chunks, the
resulting chunks' line mappings are either still untouched (degenerate early
return) or exactly the selection loop's output over the result's match matrix
and per-line word counts. -/
theorem compareBlocksCore_mappings (bd1 bd2 : DiffInfo) (qc1 qc2 : ChunkInfo)
    (qb1 qb2 : DiffInfo) (sl1 sl2 : Nat) (w1 w2 : List Word) (net : Bool)
    (hq1 : ∃ n, qc1.lineMappings = List.replicate n (none : Option Nat))
    (hq2 : ∃ n, qc2.lineMappings = List.replicate n (none : Option Nat)) :
    (∃ n1 n2,
      (compareBlocksCore bd1 bd2 qc1 qc2 qb1 qb2 sl1 sl2 w1 w2 net).pc1.lineMappings
        = List.replicate n1 (none : Option Nat)
      ∧ (compareBlocksCore bd1 bd2 qc1 qc2 qb1 qb2 sl1 sl2 w1 w2 net).pc2.lineMappings
        = List.replicate n2 (none : Option Nat))
    ∨ ∃ movedA movedB count1 count2,
        (compareBlocksCore bd1 bd2 qc1 qc2 qb1 qb2 sl1 sl2 w1 w2 net).pc1.lineMappings
          = (selectMappings
              (compareBlocksCore bd1 bd2 qc1 qc2 qb1 qb2 sl1 sl2 w1 w2 net).m
              (compareBlocksCore bd1 bd2 qc1 qc2 qb1 qb2 sl1 sl2 w1 w2 net).len2
              movedA movedB count1 count2).map1
        ∧ (compareBlocksCore bd1 bd2 qc1 qc2 qb1 qb2 sl1 sl2 w1 w2 net).pc2.lineMappings
          = (selectMappings
              (compareBlocksCore bd1 bd2 qc1 qc2 qb1 qb2 sl1 sl2 w1 w2 net).m
              (compareBlocksCore bd1 bd2 qc1 qc2 qb1 qb2 sl1 sl2 w1 w2 net).len2
              movedA movedB count1 count2).map2 := by
  simp only [compareBlocksCore]
  split
  · obtain ⟨n1, e1⟩ := hq1
    obtain ⟨n2, e2⟩ := hq2
    exact Or.inl ⟨n1, n2, e1, e2⟩
  · exact Or.inr ⟨_, _, _, _, rfl, rfl⟩

/-- Inversion of `compareBlocksData`: the resulting chunks' line mappings are
either untouched (degenerate early return) or exactly the selection loop's
output over the result's match matrix and word counts. -/
theorem compareBlocksData_mappings (doc1 doc2 : List String) (us : UserSettings)
    (bd1 bd2 : DiffInfo) (d : CBData)
    (hd : compareBlocksData doc1 doc2 us bd1 bd2 = some d) :
    (∃ n1 n2, d.pc1.lineMappings = List.replicate n1 (none : Option Nat)
      ∧ d.pc2.lineMappings = List.replicate n2 (none : Option Nat))
    ∨ ∃ movedA movedB count1 count2,
        d.pc1.lineMappings = (selectMappings d.m d.len2 movedA movedB count1 count2).map1
        ∧ d.pc2.lineMappings = (selectMappings d.m d.len2 movedA movedB count1 count2).map2 := by
  simp only [compareBlocksData] at hd
  split at hd
  · cases hd
  · cases hd
  · rw [Option.some_inj] at hd
    subst hd
    exact compareBlocksCore_mappings _ _ _ _ _ _ _ _ _ _ _
      (ite_chunk_replicate _ _ _
        (ite_chunk_replicate _ _ _ ⟨_, rfl⟩ ⟨_, rfl⟩)
        (ite_chunk_replicate _ _ _ ⟨_, rfl⟩ ⟨_, rfl⟩))
      (ite_chunk_replicate _ _ _
        (ite_chunk_replicate _ _ _ ⟨_, rfl⟩ ⟨_, rfl⟩)
        (ite_chunk_replicate _ _ _ ⟨_, rfl⟩ ⟨_, rfl⟩))

/-- C3 (amended): during block reconciliation a line pair recorded in the
chunks' `lineMapping` always has computed convergence — matched alphanumeric
word count times 100 divided by lineB's alphanumeric word count — at least
50, and pairs are recorded on both sides; the converse direction of the
claim's "if and only if" fails (see the counterexample). -/
theorem c3_mapped_pairs_converge (doc1 doc2 : List String) (us : UserSettings)
    (bd1 bd2 : DiffInfo) (d : CBData) (la b : Nat)
    (hd : compareBlocksData doc1 doc2 us bd1 bd2 = some d)
    (hmap : d.pc1.lineMappings.getD la none = some b) :
    50 ≤ (d.m.getD la []).getD b 0 * 100 / d.len2.getD b 0
    ∧ d.pc2.lineMappings.getD b none = some la := by
  rcases compareBlocksData_mappings doc1 doc2 us bd1 bd2 d hd with
    ⟨n1, n2, h1, _⟩ | ⟨mA, mB, c1, c2, h1, h2⟩
  · rw [h1, getD_replicate] at hmap
    cases hmap
  · rw [h1] at hmap
    rw [h2]
    exact (selectMappings_spec d.m d.len2 mA mB c1 c2).1 la b hmap

/-- Witness for C3's amended theorem at the concrete reconciliation of
`["a b"]` against `["a", "b", "c"]`: the recorded pair (0, 0) has convergence
100 ≥ 50 and is recorded on both sides. -/
theorem c3_mapped_pairs_converge_witness :
    compareBlocksData ["a b"] ["a", "b", "c"] exSettingsIgnSp c3bd1 c3bd2 = some c3data
    ∧ (50 ≤ (c3data.m.getD 0 []).getD 0 0 * 100 / c3data.len2.getD 0 0
        ∧ c3data.pc2.lineMappings.getD 0 none = some 0) :=
  ⟨by decide,
    c3_mapped_pairs_converge ["a b"] ["a", "b", "c"] exSettingsIgnSp c3bd1 c3bd2 c3data 0 0
      (by decide) (by decide)⟩

/-- C4: after any block reconciliation the line mappings of a reconciled pair
are injective, on both sides: two distinct mapped lines of one chunk map to
distinct lines of the other chunk (the forward-cursor candidate scan of
Engine.cpp:481-502 never reassigns a line). -/
theorem c4_lineMappings_injective (doc1 doc2 : List String) (us : UserSettings)
    (bd1 bd2 : DiffInfo) (d : CBData)
    (hd : compareBlocksData doc1 doc2 us bd1 bd2 = some d) :
    (∀ la la' b, d.pc1.lineMappings.getD la none = some b →
      d.pc1.lineMappings.getD la' none = some b → la = la')
    ∧ (∀ b b' la, d.pc2.lineMappings.getD b none = some la →
      d.pc2.lineMappings.getD b' none = some la → b = b') := by
  rcases compareBlocksData_mappings doc1 doc2 us bd1 bd2 d hd with
    ⟨n1, n2, h1, h2⟩ | ⟨mA, mB, c1, c2, h1, h2⟩
  · constructor
    · intro la la' b hla _
      rw [h1, getD_replicate] at hla
      cases hla
    · intro b b' la hb _
      rw [h2, getD_replicate] at hb
      cases hb
  · obtain ⟨hfwd, hbwd⟩ := selectMappings_spec d.m d.len2 mA mB c1 c2
    constructor
    · intro la la' b hla hla'
      rw [h1] at hla hla'
      have e1 := (hfwd la b hla).2
      have e2 := (hfwd la' b hla').2
      rw [e1] at e2
      exact (Option.some.injEq _ _).mp e2
    · intro b b' la hb hb'
      rw [h2] at hb hb'
      have e1 := hbwd b la hb
      have e2 := hbwd b' la hb'
      rw [e1] at e2
      exact (Option.some.injEq _ _).mp e2

/-- Witness for C4 at the concrete reconciliation of `["a b"]` against
`["a", "b", "c"]`. -/
theorem c4_lineMappings_injective_witness :
    compareBlocksData ["a b"] ["a", "b", "c"] exSettingsIgnSp c3bd1 c3bd2 = some c3data
    ∧ (0 : Nat) = 0 :=
  ⟨by decide,
    (c4_lineMappings_injective ["a b"] ["a", "b", "c"] exSettingsIgnSp c3bd1 c3bd2 c3data
        (by decide)).1 0 0 0 (by decide) (by decide)⟩

/-! ## The line comparator's changed-line lists -/

/-- Each `compareLines` iteration preserves the alignment of the two
changed-line lists: entries are appended pairwise and the two entries of one
iteration carry the two sides of one mapped line pair. -/
theorem compareLinesFold_rel (c1 c2 : ChunkInfo) :
    List.Forall₂
      (fun (e1 e2 : ChangedLineT) => c1.lineMappings.getD e1.line none = some e2.line)
      (compareLinesFold c1 c2).1 (compareLinesFold c1 c2).2 := by
  have main : ∀ (l : List Nat) (acc : List ChangedLineT × List ChangedLineT),
      List.Forall₂
        (fun (e1 e2 : ChangedLineT) => c1.lineMappings.getD e1.line none = some e2.line)
        acc.1 acc.2 →
      List.Forall₂
        (fun (e1 e2 : ChangedLineT) => c1.lineMappings.getD e1.line none = some e2.line)
        (l.foldl (compareLinesStep c1 c2) acc).1 (l.foldl (compareLinesStep c1 c2) acc).2 := by
    intro l
    induction l with
    | nil => intro acc h; exact h
    | cons x l' ih =>
      intro acc h
      simp only [List.foldl_cons]
      apply ih
      unfold compareLinesStep
      cases hmap : c1.lineMappings.getD x none with
      | none => exact h
      | some line2 =>
        simp only []
        split <;> split
        · exact h
        · refine List.rel_append h (List.Forall₂.cons ?_ List.Forall₂.nil)
          exact hmap
        · exact h
        · refine List.rel_append h (List.Forall₂.cons ?_ List.Forall₂.nil)
          exact hmap
  exact main (List.range c1.lineCount) ([], []) List.Forall₂.nil

/-- Identical mapped lines produce no changed-line entries: if every mapped
pair has hash-equal word sequences, `compareLines` records nothing. -/
theorem compareLinesFold_empty_diff (c1 c2 : ChunkInfo)
    (h : ∀ la lb, c1.lineMappings.getD la none = some lb →
      wordHashes (lineSlice c1 la) = wordHashes (lineSlice c2 lb)) :
    compareLinesFold c1 c2 = ([], []) := by
  have hstep : ∀ acc x, compareLinesStep c1 c2 acc x = acc := by
    intro acc x
    unfold compareLinesStep
    cases hmap : c1.lineMappings.getD x none with
    | none => rfl
    | some line2 =>
      have hw := h x line2 hmap
      simp only []
      have hld : diffCalc
          (wordHashes (if (lineSlice c2 line2).length < (lineSlice c1 x).length
            then lineSlice c2 line2 else lineSlice c1 x))
          (wordHashes (if (lineSlice c2 line2).length < (lineSlice c1 x).length
            then lineSlice c1 x else lineSlice c2 line2)) = [] := by
        split
        · rw [← hw, diffCalc, if_pos rfl]
        · rw [← hw, diffCalc, if_pos rfl]
      rw [if_pos hld]
  have main : ∀ (l : List Nat) (acc : List ChangedLineT × List ChangedLineT),
      l.foldl (compareLinesStep c1 c2) acc = acc := by
    intro l
    induction l with
    | nil => intro acc; rfl
    | cons x l' ih =>
      intro acc
      simp only [List.foldl_cons]
      rw [hstep acc x]
      exact ih acc
  exact main (List.range c1.lineCount) ([], [])

/-- An `if` between two blocks with empty changed-line lists has an empty
changed-line list. -/
theorem ite_block_changedLines (c : Prop) [Decidable c] (a b : DiffInfo)
    (ha : a.changedLines = []) (hb : b.changedLines = []) :
    (if c then a else b).changedLines = [] := by
  split
  · exact ha
  · exact hb

/-- Inversion of `compareBlocksCore` for the changed-line lists: starting
from blocks with empty lists, the two sides' changed-line lists are pairwise
aligned entries of mapped line pairs. -/
theorem compareBlocksCore_changed (bd1 bd2 : DiffInfo) (qc1 qc2 : ChunkInfo)
    (qb1 qb2 : DiffInfo) (sl1 sl2 : Nat) (w1 w2 : List Word) (net : Bool)
    (hb1 : qb1.changedLines = []) (hb2 : qb2.changedLines = []) :
    (compareBlocksCore bd1 bd2 qc1 qc2 qb1 qb2 sl1 sl2 w1 w2 net).sb1.changedLines.length
      = (compareBlocksCore bd1 bd2 qc1 qc2 qb1 qb2 sl1 sl2 w1 w2 net).sb2.changedLines.length
    ∧ List.Forall₂
      (fun (e1 e2 : ChangedLineT) =>
        (compareBlocksCore bd1 bd2 qc1 qc2 qb1 qb2 sl1 sl2 w1 w2 net).pc1.lineMappings.getD
          e1.line none = some e2.line)
      (compareBlocksCore bd1 bd2 qc1 qc2 qb1 qb2 sl1 sl2 w1 w2 net).sb1.changedLines
      (compareBlocksCore bd1 bd2 qc1 qc2 qb1 qb2 sl1 sl2 w1 w2 net).sb2.changedLines := by
  have hrel : List.Forall₂
      (fun (e1 e2 : ChangedLineT) =>
        (compareBlocksCore bd1 bd2 qc1 qc2 qb1 qb2 sl1 sl2 w1 w2 net).pc1.lineMappings.getD
          e1.line none = some e2.line)
      (compareBlocksCore bd1 bd2 qc1 qc2 qb1 qb2 sl1 sl2 w1 w2 net).sb1.changedLines
      (compareBlocksCore bd1 bd2 qc1 qc2 qb1 qb2 sl1 sl2 w1 w2 net).sb2.changedLines := by
    simp only [compareBlocksCore]
    split
    · rw [hb1, hb2]
      exact List.Forall₂.nil
    · rw [hb1, hb2]
      simp only [List.nil_append]
      set sel := selectMappings
        (buildMatrix qc1 qc2 sl1 sl2 (diffCalc (wordHashes w1) (wordHashes w2)))
        (buildLine2Len qc2) (movedOf qb1) (movedOf qb2) qc1.lineCount qc2.lineCount with hsel
      exact compareLinesFold_rel { qc1 with lineMappings := sel.map1 }
        { qc2 with lineMappings := sel.map2 }
  exact ⟨hrel.length_eq, hrel⟩

/-- C10: after reconciling a paired ONLY_IN_A/ONLY_IN_B block pair, the two
blocks' changed-line lists have equal length and for every index `j` the
`j`-th entries of the two lists carry the two sides of the same mapped line
pair — the alignment downstream marking relies on when it indexes both lists
with the same `j` (Engine.cpp:341-345, 527-544). -/
theorem c10_changed_lists_aligned (doc1 doc2 : List String) (us : UserSettings)
    (bd1 bd2 : DiffInfo) (d : CBData)
    (h1 : bd1.changedLines = []) (h2 : bd2.changedLines = [])
    (hd : compareBlocksData doc1 doc2 us bd1 bd2 = some d) :
    d.sb1.changedLines.length = d.sb2.changedLines.length
    ∧ List.Forall₂
      (fun (e1 e2 : ChangedLineT) =>
        d.pc1.lineMappings.getD e1.line none = some e2.line)
      d.sb1.changedLines d.sb2.changedLines := by
  simp only [compareBlocksData] at hd
  split at hd
  · cases hd
  · cases hd
  · rw [Option.some_inj] at hd
    subst hd
    exact compareBlocksCore_changed _ _ _ _ _ _ _ _ _ _ _
      (ite_block_changedLines _ _ _ (ite_block_changedLines _ _ _ h1 h2)
        (ite_block_changedLines _ _ _ h2 h1))
      (ite_block_changedLines _ _ _ (ite_block_changedLines _ _ _ h2 h1)
        (ite_block_changedLines _ _ _ h1 h2))

/-- Witness for C10 at the concrete reconciliation of `["foo bar"]` against
`["foo baz"]`. -/
theorem c10_changed_lists_aligned_witness :
    compareBlocksData ["foo bar"] ["foo baz"] exSettings c7bd1 c7bd2 = some c7data
    ∧ c7data.sb1.changedLines.length = c7data.sb2.changedLines.length :=
  ⟨by decide,
    (c10_changed_lists_aligned ["foo bar"] ["foo baz"] exSettings c7bd1 c7bd2 c7data
      (by decide) (by decide) (by decide)).1⟩

/-- C7: word-level change spans. Reconciling `"foo bar"` against `"foo baz"`
appends exactly one ChangedLine to each block, holding exactly one Change per
side spanning characters [4, 7) (offset 4, length 3: the run-word's position
to its position plus length, Engine.cpp:353-357), with no change over the
identical `"foo "` prefix; and a mapped pair whose word-level diff is empty
appends nothing (Engine.cpp:341-342). -/
theorem c7_change_spans :
    (c7data.bd1.changedLines = [⟨0, [⟨4, 3⟩]⟩]
      ∧ c7data.bd2.changedLines = [⟨0, [⟨4, 3⟩]⟩])
    ∧ ∀ (c1 c2 : ChunkInfo),
        (∀ la lb, c1.lineMappings.getD la none = some lb →
          wordHashes (lineSlice c1 la) = wordHashes (lineSlice c2 lb)) →
        compareLinesFold c1 c2 = ([], []) :=
  ⟨by decide, compareLinesFold_empty_diff⟩

/-- Witness for C7's empty-word-diff clause at a self-mapped one-line chunk. -/
theorem c7_change_spans_witness :
    (∀ la lb, c7chunk.lineMappings.getD la none = some lb →
      wordHashes (lineSlice c7chunk la) = wordHashes (lineSlice c7chunk lb))
    ∧ compareLinesFold c7chunk c7chunk = ([], []) := by
  have hyp : ∀ la lb, c7chunk.lineMappings.getD la none = some lb →
      wordHashes (lineSlice c7chunk la) = wordHashes (lineSlice c7chunk lb) := by
    intro la lb h
    cases la with
    | zero =>
      have he : lb = 0 := by
        have h0 : (some 0 : Option Nat) = some lb := h
        cases h0
        rfl
      subst he
      rfl
    | succ n =>
      exfalso
      have h0 : (none : Option Nat) = some lb := h
      cases h0
  exact ⟨hyp, c7_change_spans.2 c7chunk c7chunk hyp⟩

/-! ## The locator's probe loop -/

/-- Invariant of the probe loop (Engine.cpp:247-300): the best offset is
either still unset (`-1`, with nothing probed and the probe at line 0) or a
probed candidate within `[0, endLine]` whose nonzero score is the best score.
Any `ok` exit then lands in the candidate range, is 0 when every probe scored
zero, and is a probed candidate when some probe scored nonzero. -/
theorem gbmLoop_ok (shorter longer : ChunkInfo) (endLine : Int) (hend : 0 < endLine) :
    ∀ (fuel step : Nat) (line : Int) (best : Nat) (bestOff : Int) (probes : List Int)
      (r : Int) (ps : List Int),
      ((bestOff = -1 ∧ best = 0 ∧ probes = [] ∧ line = 0)
        ∨ (bestOff ∈ probes ∧ 0 ≤ bestOff ∧ bestOff ≤ endLine
            ∧ best = probeScore shorter longer bestOff.toNat ∧ best ≠ 0)) →
      gbmLoop shorter longer endLine fuel step line best bestOff probes
        = (GbmOut.ok r, ps) →
      (0 ≤ r ∧ r ≤ endLine)
      ∧ ((∀ p ∈ ps, probeScore shorter longer p.toNat = 0) → r = 0)
      ∧ ((∃ p ∈ ps, probeScore shorter longer p.toNat ≠ 0) → r ∈ ps) := by
  intro fuel
  induction fuel with
  | zero =>
    intro step line best bestOff probes r ps _ hrun
    simp [gbmLoop] at hrun
  | succ f ih =>
    intro step line best bestOff probes r ps hinv hrun
    simp only [gbmLoop] at hrun
    by_cases hg : line ≤ endLine ∧ line ≠ bestOff
    · rw [if_pos hg] at hrun
      by_cases hneg : line < 0
      · rw [if_pos hneg] at hrun
        cases hrun
      · rw [if_neg hneg] at hrun
        by_cases hlt : probeScore shorter longer line.toNat < best
        · rw [if_pos hlt] at hrun
          refine ih _ _ _ _ _ _ _ ?_ hrun
          rcases hinv with ⟨_, hb0, _, _⟩ | ⟨hmem, h0, h1, h2, h3⟩
          · omega
          · exact Or.inr ⟨List.mem_append_left _ hmem, h0, h1, h2, h3⟩
        · rw [if_neg hlt] at hrun
          by_cases hz : probeScore shorter longer line.toNat = 0
          · rw [if_pos hz] at hrun
            have hr0 : r = 0 ∧ ps = probes ++ [line] := by
              cases hrun
              exact ⟨rfl, rfl⟩
            obtain ⟨hr0, hps⟩ := hr0
            subst hr0
            subst hps
            refine ⟨⟨le_refl _, by omega⟩, fun _ => rfl, fun _ => ?_⟩
            rcases hinv with ⟨_, _, hpr, hl0⟩ | ⟨_, _, _, h2, h3⟩
            · subst hpr
              subst hl0
              exact List.mem_singleton.mpr rfl
            · omega
          · rw [if_neg hz] at hrun
            refine ih _ _ _ _ _ _ _ ?_ hrun
            exact Or.inr ⟨List.mem_append_right _ (List.mem_singleton.mpr rfl),
              by omega, hg.1, rfl, hz⟩
    · rw [if_neg hg] at hrun
      have hr0 : r = bestOff ∧ ps = probes := by
        cases hrun
        exact ⟨rfl, rfl⟩
      obtain ⟨hr0, hps⟩ := hr0
      subst hr0
      subst hps
      rcases hinv with ⟨hb, _, _, hl0⟩ | ⟨hmem, h0, h1, h2, h3⟩
      · exfalso
        apply hg
        subst hb
        subst hl0
        exact ⟨by omega, by omega⟩
      · refine ⟨⟨h0, h1⟩, fun hall => ?_, fun _ => hmem⟩
        exact absurd (hall r hmem) (h2 ▸ h3)

/-- C8: the sub-block offset locator, on a normal return, yields offset 0
whenever no probed candidate scored a nonzero matched-alphanumeric-word
count (the zero-score early exit, Engine.cpp:292-294), and otherwise a probed
candidate offset within `[0, longer.lineCount - shorter.lineCount]`. -/
theorem c8_locator_result (shorter longer : ChunkInfo) (r : Int) (ps : List Int)
    (hc : shorter.lineCount ≤ longer.lineCount)
    (hr : getBestMatchingSubChunkOffset shorter longer = (GbmOut.ok r, ps)) :
    (0 ≤ r ∧ r ≤ (longer.lineCount : Int) - (shorter.lineCount : Int))
    ∧ ((∀ p ∈ ps, probeScore shorter longer p.toNat = 0) → r = 0)
    ∧ ((∃ p ∈ ps, probeScore shorter longer p.toNat ≠ 0) → r ∈ ps) := by
  simp only [getBestMatchingSubChunkOffset] at hr
  by_cases hend : (longer.lineCount : Int) - (shorter.lineCount : Int) ≤ 0
  · rw [if_pos hend] at hr
    have hr0 : r = 0 ∧ ps = [] := by
      cases hr
      exact ⟨rfl, rfl⟩
    obtain ⟨hr0, hps⟩ := hr0
    subst hr0
    subst hps
    refine ⟨⟨le_refl _, ?_⟩, fun _ => rfl, fun h => absurd h (by simp)⟩
    omega
  · rw [if_neg hend] at hr
    exact gbmLoop_ok shorter longer _ (by omega) _ _ _ _ _ _ _ _
      (Or.inl ⟨rfl, rfl, rfl, rfl⟩) hr

/-- Witness for C8 at the chunks `["a b"]` / `["a", "b", "c"]`: the locator
returns offset 0 after probing 0, 2, 1, and 0 is a probed candidate in
`[0, 2]`. -/
theorem c8_locator_result_witness :
    (c8shorter.lineCount ≤ c8longer.lineCount
      ∧ getBestMatchingSubChunkOffset c8shorter c8longer = (GbmOut.ok 0, [0, 2, 1]))
    ∧ ((0 ≤ (0 : Int) ∧ (0 : Int) ≤ (c8longer.lineCount : Int) - (c8shorter.lineCount : Int))
      ∧ ((∀ p ∈ [(0 : Int), 2, 1], probeScore c8shorter c8longer p.toNat = 0) → (0 : Int) = 0)
      ∧ ((∃ p ∈ [(0 : Int), 2, 1], probeScore c8shorter c8longer p.toNat ≠ 0) →
          (0 : Int) ∈ [(0 : Int), 2, 1])) :=
  ⟨⟨by decide, by decide⟩,
    c8_locator_result c8shorter c8longer 0 [0, 2, 1] (by decide) (by decide)⟩

/-! ## The block-pairing loop -/

/-- `compareBlocks` only ever appends changed-line detail: the blocks' type
and back-reference are unchanged. -/
theorem compareBlocksCore_preserves (bd1 bd2 : DiffInfo) (qc1 qc2 : ChunkInfo)
    (qb1 qb2 : DiffInfo) (sl1 sl2 : Nat) (w1 w2 : List Word) (net : Bool) :
    (compareBlocksCore bd1 bd2 qc1 qc2 qb1 qb2 sl1 sl2 w1 w2 net).bd1.type = bd1.type
    ∧ (compareBlocksCore bd1 bd2 qc1 qc2 qb1 qb2 sl1 sl2 w1 w2 net).bd1.matchedDiff
        = bd1.matchedDiff
    ∧ (compareBlocksCore bd1 bd2 qc1 qc2 qb1 qb2 sl1 sl2 w1 w2 net).bd2.type = bd2.type
    ∧ (compareBlocksCore bd1 bd2 qc1 qc2 qb1 qb2 sl1 sl2 w1 w2 net).bd2.matchedDiff
        = bd2.matchedDiff := by
  simp only [compareBlocksCore]
  split
  · exact ⟨rfl, rfl, rfl, rfl⟩
  · exact ⟨rfl, rfl, rfl, rfl⟩

/-- Lift of `compareBlocksCore_preserves` to `compareBlocksData`. -/
theorem compareBlocksData_preserves (doc1 doc2 : List String) (us : UserSettings)
    (bd1 bd2 : DiffInfo) (d : CBData)
    (hd : compareBlocksData doc1 doc2 us bd1 bd2 = some d) :
    d.bd1.type = bd1.type ∧ d.bd1.matchedDiff = bd1.matchedDiff
    ∧ d.bd2.type = bd2.type ∧ d.bd2.matchedDiff = bd2.matchedDiff := by
  simp only [compareBlocksData] at hd
  split at hd
  · cases hd
  · cases hd
  · rw [Option.some_inj] at hd
    subst hd
    exact compareBlocksCore_preserves _ _ _ _ _ _ _ _ _ _ _

/-- Case analysis of one pairing-loop iteration (Engine.cpp:798-816): either
the adjacency condition fails and the blocks are untouched, or the two blocks
get reciprocal back-references and are reconciled. -/
theorem pairStep_cases (tex1 tex2 : List String) (us : UserSettings)
    (blocks : List DiffInfo) (i : Nat) (blocks2 : List DiffInfo)
    (h : pairStep tex1 tex2 us blocks i = some blocks2) :
    (¬((blocks.getD i dBlock).type = DiffType.DIFF_IN_2 ∧ 0 < i
        ∧ (blocks.getD (i - 1) dBlock).type = DiffType.DIFF_IN_1) ∧ blocks2 = blocks)
    ∨ (((blocks.getD i dBlock).type = DiffType.DIFF_IN_2 ∧ 0 < i
        ∧ (blocks.getD (i - 1) dBlock).type = DiffType.DIFF_IN_1)
      ∧ ∃ d, compareBlocksData tex1 tex2 us
            { blocks.getD (i - 1) dBlock with matchedDiff := some i }
            { blocks.getD i dBlock with matchedDiff := some (i - 1) } = some d
          ∧ blocks2 = (blocks.set (i - 1) d.bd1).set i d.bd2) := by
  unfold pairStep at h
  split at h
  · rename_i hcond
    right
    refine ⟨hcond, ?_⟩
    rw [Option.map_eq_some'] at h
    obtain ⟨d, hd, hb⟩ := h
    exact ⟨d, hd, hb.symm⟩
  · rename_i hcond
    left
    exact ⟨hcond, (Option.some_inj.mp h).symm⟩

/-- Invariant of the pairing loop: after processing indices below `i`, every
back-reference is between an ONLY_IN_A block and the ONLY_IN_B block
immediately following it, the ONLY_IN_B member has index below `i`, and the
two references are reciprocal. -/
theorem pairLoop_links (cancel : Nat → Bool) (tex1 tex2 : List String) (us : UserSettings) :
    ∀ (fuel i : Nat) (blocks : List DiffInfo) (st : OutState)
      (blocks' : List DiffInfo) (st' : OutState),
      (∀ a b, (blocks.getD a dBlock).matchedDiff = some b →
        ((b = a + 1 ∧ (blocks.getD a dBlock).type = DiffType.DIFF_IN_1
            ∧ (blocks.getD b dBlock).type = DiffType.DIFF_IN_2 ∧ b < i)
          ∨ (a = b + 1 ∧ (blocks.getD b dBlock).type = DiffType.DIFF_IN_1
            ∧ (blocks.getD a dBlock).type = DiffType.DIFF_IN_2 ∧ a < i))
        ∧ (blocks.getD b dBlock).matchedDiff = some a) →
      pairLoop cancel tex1 tex2 us fuel i blocks st = Except.ok (blocks', st') →
      ∀ a b, (blocks'.getD a dBlock).matchedDiff = some b →
        ((b = a + 1 ∧ (blocks'.getD a dBlock).type = DiffType.DIFF_IN_1
            ∧ (blocks'.getD b dBlock).type = DiffType.DIFF_IN_2)
          ∨ (a = b + 1 ∧ (blocks'.getD b dBlock).type = DiffType.DIFF_IN_1
            ∧ (blocks'.getD a dBlock).type = DiffType.DIFF_IN_2))
        ∧ (blocks'.getD b dBlock).matchedDiff = some a := by
  intro fuel
  induction fuel with
  | zero =>
    intro i blocks st blocks' st' hinv hrun a b hab
    simp only [pairLoop] at hrun
    cases hrun
    obtain ⟨hadj, hrec⟩ := hinv a b hab
    refine ⟨?_, hrec⟩
    rcases hadj with ⟨h1, h2, h3, _⟩ | ⟨h1, h2, h3, _⟩
    · exact Or.inl ⟨h1, h2, h3⟩
    · exact Or.inr ⟨h1, h2, h3⟩
  | succ f ih =>
    intro i blocks st blocks' st' hinv hrun a b hab
    simp only [pairLoop] at hrun
    split at hrun
    · cases hrun
    · rename_i blocks2 hstep
      split at hrun
      · cases hrun
      · -- one step preserved the invariant; recurse
        refine ih (i + 1) blocks2 _ blocks' st' ?_ hrun a b hab
        rcases pairStep_cases tex1 tex2 us blocks i blocks2 hstep with
          ⟨_, he⟩ | ⟨⟨hty2, hipos, hty1⟩, d, hd, he⟩
        · subst he
          intro x y hxy
          obtain ⟨hadj, hrec⟩ := hinv x y hxy
          refine ⟨?_, hrec⟩
          rcases hadj with ⟨h1, h2, h3, h4⟩ | ⟨h1, h2, h3, h4⟩
          · exact Or.inl ⟨h1, h2, h3, by omega⟩
          · exact Or.inr ⟨h1, h2, h3, by omega⟩
        · subst he
          obtain ⟨hp1, hp2, hp3, hp4⟩ := compareBlocksData_preserves _ _ _ _ _ _ hd
          have hlen : i < blocks.length := by
            by_contra hle
            rw [getD_of_length_le dBlock blocks i (by omega)] at hty2
            cases hty2
          have hlen1 : i - 1 < blocks.length := by omega
          have hii : ¬ (i - 1) = i := by omega
          -- lookups in the updated list
          have gA : ((blocks.set (i - 1) d.bd1).set i d.bd2).getD (i - 1) dBlock = d.bd1 := by
            rw [getD_set_ne dBlock _ _ _ _ (fun e => hii e.symm),
              getD_set_self dBlock _ _ _ hlen1]
          have gB : ((blocks.set (i - 1) d.bd1).set i d.bd2).getD i dBlock = d.bd2 := by
            rw [getD_set_self dBlock _ _ _ (by rw [List.length_set]; omega)]
          have gO : ∀ x, ¬ x = i - 1 → ¬ x = i →
              ((blocks.set (i - 1) d.bd1).set i d.bd2).getD x dBlock
                = blocks.getD x dBlock := by
            intro x hx1 hx2
            rw [getD_set_ne dBlock _ _ _ _ (fun e => hx2 e.symm),
              getD_set_ne dBlock _ _ _ _ (fun e => hx1 e.symm)]
          intro x y hxy
          by_cases hxA : x = i - 1
          · rw [hxA] at hxy ⊢
            rw [gA, hp2] at hxy
            have hy : y = i := by
              have h0 : (some i : Option Nat) = some y := hxy
              cases h0
              rfl
            rw [hy]
            refine ⟨Or.inl ⟨by omega, by rw [gA, hp1]; exact hty1, by rw [gB, hp3]; exact hty2,
              by omega⟩, ?_⟩
            rw [gB, hp4]
          · by_cases hxB : x = i
            · rw [hxB] at hxy ⊢
              rw [gB, hp4] at hxy
              have hy : y = i - 1 := by
                have h0 : (some (i - 1) : Option Nat) = some y := hxy
                cases h0
                rfl
              rw [hy]
              refine ⟨Or.inr ⟨by omega, by rw [gA, hp1]; exact hty1, by rw [gB, hp3]; exact hty2,
                by omega⟩, ?_⟩
              rw [gA, hp2]
            · rw [gO x hxA hxB] at hxy
              obtain ⟨hadj, hrec⟩ := hinv x y hxy
              -- the old link's counterpart is not one of the two updated slots
              have hyA : ¬ y = i - 1 := by
                intro hy
                subst hy
                rcases hadj with ⟨_, _, h3, _⟩ | ⟨h1, _, _, _⟩
                · rw [h3] at hty1
                  cases hty1
                · exact hxB (by omega)
              have hyB : ¬ y = i := by
                intro hy
                subst hy
                rcases hadj with ⟨_, _, _, h4⟩ | ⟨h1, _, _, h4⟩
                · omega
                · omega
              refine ⟨?_, by rw [gO y hyA hyB]; exact hrec⟩
              rcases hadj with ⟨h1, h2, h3, h4⟩ | ⟨h1, h2, h3, h4⟩
              · exact Or.inl ⟨h1, by rw [gO x hxA hxB]; exact h2,
                  by rw [gO y hyA hyB]; exact h3, by omega⟩
              · exact Or.inr ⟨h1, by rw [gO y hyA hyB]; exact h2,
                  by rw [gO x hxA hxB]; exact h3, by omega⟩

/-- C5: pair back-references are set only for an ONLY_IN_A block immediately
followed by an ONLY_IN_B block and are reciprocal: whenever a block's
`matchedDiff` points to a partner, the partner's points back
(Engine.cpp:798-816). -/
theorem c5_pair_backrefs (cancel : Nat → Bool) (tex1 tex2 : List String)
    (us : UserSettings) (blocks0 : List DiffInfo) (st : OutState)
    (blocks' : List DiffInfo) (st' : OutState)
    (hinit : ∀ a, (blocks0.getD a dBlock).matchedDiff = none)
    (hrun : pairLoop cancel tex1 tex2 us blocks0.length 0 blocks0 st
      = Except.ok (blocks', st')) :
    ∀ a b, (blocks'.getD a dBlock).matchedDiff = some b →
      ((b = a + 1 ∧ (blocks'.getD a dBlock).type = DiffType.DIFF_IN_1
          ∧ (blocks'.getD b dBlock).type = DiffType.DIFF_IN_2)
        ∨ (a = b + 1 ∧ (blocks'.getD b dBlock).type = DiffType.DIFF_IN_1
          ∧ (blocks'.getD a dBlock).type = DiffType.DIFF_IN_2))
      ∧ (blocks'.getD b dBlock).matchedDiff = some a := by
  refine pairLoop_links cancel tex1 tex2 us blocks0.length 0 blocks0 st blocks' st' ?_ hrun
  intro a b hab
  rw [hinit a] at hab
  cases hab

/-- Witness for C5 at the `"foo bar"` / `"foo baz"` pairing run: block 0's
back-reference points to block 1 and reciprocity holds. -/
theorem c5_pair_backrefs_witness :
    ((∀ a, (([c7bd1, c7bd2].getD a dBlock).matchedDiff : Option Nat) = none)
      ∧ pairLoop (fun _ => false) ["foo bar"] ["foo baz"] exSettings 2 0 [c7bd1, c7bd2]
          ⟨["foo bar"], ["foo baz"], [], [], 0⟩ = Except.ok (c5blocks, c5st)
      ∧ (c5blocks.getD 0 dBlock).matchedDiff = some 1)
    ∧ ((1 = 0 + 1 ∧ (c5blocks.getD 0 dBlock).type = DiffType.DIFF_IN_1
          ∧ (c5blocks.getD 1 dBlock).type = DiffType.DIFF_IN_2)
        ∨ (0 = 1 + 1 ∧ (c5blocks.getD 1 dBlock).type = DiffType.DIFF_IN_1
          ∧ (c5blocks.getD 0 dBlock).type = DiffType.DIFF_IN_2))
      ∧ (c5blocks.getD 1 dBlock).matchedDiff = some 0 :=
  ⟨⟨fun a => match a with
      | 0 => rfl
      | 1 => rfl
      | _ + 2 => rfl,
    rfl, by decide⟩,
    c5_pair_backrefs (fun _ => false) ["foo bar"] ["foo baz"] exSettings [c7bd1, c7bd2]
      ⟨["foo bar"], ["foo baz"], [], [], 0⟩ c5blocks c5st
      (fun a => match a with
        | 0 => rfl
        | 1 => rfl
        | _ + 2 => rfl)
      rfl 0 1 (by decide)⟩

/-! ## Cancellation -/

/-- A successful checkpoint consumed one index and saw a non-cancelled
response at it. -/
theorem progChk_ok (cancel : Nat → Bool) (st st' : OutState)
    (h : progChk cancel st = Except.ok st') :
    cancel (st'.cnt - 1) = false ∧ 0 < st'.cnt := by
  unfold progChk at h
  split at h
  · cases h
  · rename_i hc
    cases h
    refine ⟨?_, by show 0 < st.cnt + 1; omega⟩
    show cancel (st.cnt + 1 - 1) = false
    simpa using hc

/-- A completed `markAllDiffs` ends with its final `NextPhase` checkpoint,
which saw a non-cancelled response at the last consumed index. -/
theorem markAllDiffs_ok_last (cancel : Nat → Bool) (d1 d2 : DocCmpInfo)
    (blocks : List DiffInfo) (st out : OutState)
    (h : markAllDiffs cancel d1 d2 blocks st = Except.ok out) :
    cancel (out.cnt - 1) = false ∧ 0 < out.cnt := by
  simp only [markAllDiffs] at h
  split at h
  · cases h
  · exact progChk_ok cancel _ out h

/-- A completed compare tail either returns its input state (zero-blocks
MATCH exit) or ends with a checkpoint that saw a non-cancelled response. -/
theorem runCompareBody_ok_last (us : UserSettings) (cancel : Nat → Bool)
    (e1 e2 : DocCmpInfo) (g1 g2 : List Nat) (st0 : OutState)
    (r : CompareResult) (out : OutState)
    (h0 : cancel (st0.cnt - 1) = false ∧ 0 < st0.cnt)
    (h : runCompareBody us cancel e1 e2 g1 g2 st0 = Except.ok (r, out)) :
    cancel (out.cnt - 1) = false ∧ 0 < out.cnt := by
  simp only [runCompareBody] at h
  split at h
  · cases h
    exact h0
  · split at h
    · cases h
    · rename_i st3 heq3
      split at h
      · cases h
      · rename_i pr hpair
        split at h
        · cases h
        · rename_i st4 heq4
          split at h
          · cases h
          · rename_i st5 hmad
            cases h
            exact markAllDiffs_ok_last cancel _ _ _ _ _ hmad

/-- A non-cancelled compare run ends with a checkpoint that saw a
non-cancelled response at the last consumed index. -/
theorem runCompareE_ok_last (mainText subText : List String) (mainSec subSec : SectionT)
    (us : UserSettings) (align0 : List AlignmentPair) (cancel : Nat → Bool)
    (r : CompareResult) (out : OutState)
    (h : runCompareE mainText subText mainSec subSec us align0 cancel
      = Except.ok (r, out)) :
    cancel (out.cnt - 1) = false ∧ 0 < out.cnt := by
  simp only [runCompareE, andThenE] at h
  split at h
  · cases h
  · rename_i st1 heq1
    split at h
    · cases h
    · rename_i st2 heq2
      exact runCompareBody_ok_last _ _ _ _ _ _ _ _ _ (progChk_ok cancel _ _ heq2) h

/-- C2 (amended): with a latched (monotone) cancellation predicate, a
cancelled response at any checkpoint the invocation reaches forces the
CANCELLED result — every checkpoint aborts the remaining phases. (Partially
built alignment entries and marker side effects performed before the
cancellation point remain in the caller-visible state; see the
counterexample. DiffBlocks are never part of the caller-visible result.) -/
theorem c2_cancel_aborts (mainText subText : List String) (mainSec subSec : SectionT)
    (us : UserSettings) (align0 : List AlignmentPair) (cancel : Nat → Bool)
    (r : CompareResult) (out : OutState)
    (hmono : ∀ j k : Nat, j ≤ k → cancel j = true → cancel k = true)
    (hrun : runCompare mainText subText mainSec subSec us align0 cancel = some (r, out))
    (k : Nat) (hk : k < out.cnt) (hc : cancel k = true) :
    r = CompareResult.COMPARE_CANCELLED := by
  unfold runCompare at hrun
  cases he : runCompareE mainText subText mainSec subSec us align0 cancel with
  | ok p =>
    rw [he] at hrun
    have hp : p = (r, out) := by
      cases hrun
      rfl
    subst hp
    obtain ⟨hlast, hpos⟩ := runCompareE_ok_last _ _ _ _ _ _ _ _ _ he
    have : cancel (out.cnt - 1) = true := hmono k (out.cnt - 1) (by omega) hc
    rw [hlast] at this
    cases this
  | error e =>
    rw [he] at hrun
    cases e with
    | cancelled st =>
      have hp : (CompareResult.COMPARE_CANCELLED, st) = (r, out) := by
        cases hrun
        rfl
      cases hp
      rfl
    | ub => cases hrun

/-- Witness for C2's amended theorem: the spec's own test — a predicate that
latches at the second checkpoint — yields CANCELLED on the `["a"]` vs `["b"]`
compare. -/
theorem c2_cancel_aborts_witness :
    ((∀ j k : Nat, j ≤ k → (decide (1 ≤ j)) = true → (decide (1 ≤ k)) = true)
      ∧ runCompare ["a"] ["b"] ⟨0, 0⟩ ⟨0, 0⟩ exSettings [] (fun k => decide (1 ≤ k))
          = some (CompareResult.COMPARE_CANCELLED,
              ⟨["a"], ["b"], [], [], 2⟩)
      ∧ 1 < 2 ∧ (decide ((1 : Nat) ≤ 1)) = true)
    ∧ CompareResult.COMPARE_CANCELLED = CompareResult.COMPARE_CANCELLED :=
  ⟨⟨fun j k hjk hj => by
      simp only [decide_eq_true_eq] at hj ⊢
      omega,
    by decide, by decide, by decide⟩,
    c2_cancel_aborts ["a"] ["b"] ⟨0, 0⟩ ⟨0, 0⟩ exSettings [] (fun k => decide (1 ≤ k))
      CompareResult.COMPARE_CANCELLED ⟨["a"], ["b"], [], [], 2⟩
      (fun j k hjk hj => by
        simp only [decide_eq_true_eq] at hj ⊢
        omega)
      (by decide) 1 (by decide) (by decide)⟩

/-! ## Identity runs -/

/-- The hash loop touches the caller-visible state only through the progress
counter: documents, alignment and markers pass through unchanged. -/
theorem hashLoop_state (cancel : Nat → Bool) (us : UserSettings) (text : List String)
    (off : Nat) :
    ∀ (rem i : Nat) (st : OutState),
      (hashLoop cancel us text off rem i st).2
        = ⟨st.mainText, st.subText, st.alignment, st.markers,
            (hashLoop cancel us text off rem i st).2.cnt⟩ := by
  intro rem
  induction rem with
  | zero => intro i st; rfl
  | succ n ih =>
    intro i st
    by_cases h5 : i % 500 = 0
    · by_cases hc : cancel st.cnt = true
      · simp only [hashLoop]
        rw [if_pos h5, if_pos hc]
      · simp only [hashLoop]
        rw [if_pos h5, if_neg hc]
        exact ih (i + 1) ⟨st.mainText, st.subText, st.alignment, st.markers, st.cnt + 1⟩
    · simp only [hashLoop]
      rw [if_neg h5]
      exact ih (i + 1) st

/-- With the never-cancelled predicate the hash vector does not depend on the
threaded state. -/
theorem hashLoop_never_fst_const (us : UserSettings) (text : List String) (off : Nat) :
    ∀ (rem i : Nat) (st st' : OutState),
      (hashLoop never us text off rem i st).1
        = (hashLoop never us text off rem i st').1 := by
  have hnc : ∀ m, ¬ (never m = true) := by intro m; simp [never]
  intro rem
  induction rem with
  | zero => intro i st st'; rfl
  | succ n ih =>
    intro i st st'
    by_cases h5 : i % 500 = 0
    · simp only [hashLoop]
      rw [if_pos h5, if_pos h5, if_neg (hnc _), if_neg (hnc _)]
      exact congrArg (Option.map _) (ih (i + 1) _ _)
    · simp only [hashLoop]
      rw [if_neg h5, if_neg h5]
      exact congrArg (Option.map _) (ih (i + 1) _ _)

/-- `computeLineHashes` on a literal state only bumps the progress counter. -/
theorem computeLineHashes_state_lit (cancel : Nat → Bool) (us : UserSettings)
    (t1 t2 : List String) (al : List AlignmentPair) (mks : List MarkEvent) (n : Nat)
    (d : DocCmpInfo) :
    (computeLineHashes cancel us ⟨t1, t2, al, mks, n⟩ d).2.2
      = ⟨t1, t2, al, mks, (computeLineHashes cancel us ⟨t1, t2, al, mks, n⟩ d).2.2.cnt⟩ :=
  hashLoop_state cancel us (textOf ⟨t1, t2, al, mks, n⟩ d.view)
    (adjustSec d.sec (docLineCount (textOf ⟨t1, t2, al, mks, n⟩ d.view))).off
    (adjustSec d.sec (docLineCount (textOf ⟨t1, t2, al, mks, n⟩ d.view))).len 0
    ⟨t1, t2, al, mks, n⟩

/-- Never-cancelled hashing depends only on the hashed text and the section. -/
theorem computeLineHashes_never_fst_congr (us : UserSettings) (st st' : OutState)
    (d d' : DocCmpInfo) (h : textOf st d.view = textOf st' d'.view)
    (hsec : d.sec = d'.sec) :
    (computeLineHashes never us st d).1 = (computeLineHashes never us st' d').1 := by
  simp only [computeLineHashes]
  rw [h, hsec]
  exact congrArg (fun o => Option.getD o []) (hashLoop_never_fst_const us _ _ _ _ _ _)

/-- A never-cancelled checkpoint on a literal state. -/
theorem progChk_never_lit (t1 t2 : List String) (al : List AlignmentPair)
    (mks : List MarkEvent) (n : Nat) :
    progChk never ⟨t1, t2, al, mks, n⟩ = Except.ok ⟨t1, t2, al, mks, n + 1⟩ := rfl

/-- Sequencing after a successful phase runs the continuation. -/
theorem andThenE_ok {α β : Type} (a : α) (f : α → Except Halt β) :
    andThenE (Except.ok a) f = f a := rfl

/-- Equal sequences diff to the empty script. -/
theorem diffCalc_self (a : List Nat) : diffCalc a a = [] := by
  simp only [diffCalc]
  rfl

/-- The compare tail on equal hash sequences takes the zero-blocks MATCH exit
(Engine.cpp:749-754), leaving the state untouched. -/
theorem runCompareBody_nil (us : UserSettings) (cancel : Nat → Bool)
    (e1 e2 : DocCmpInfo) (g : List Nat) (st : OutState) :
    runCompareBody us cancel e1 e2 g g st
      = Except.ok (CompareResult.COMPARE_MATCH, st) := by
  simp only [runCompareBody, diffCalc_self]
  rfl

/-- C1 (amended): diffing a document against itself yields ZERO diff blocks —
not "exactly one MATCH block covering the whole length" — and the orchestrator
maps the empty block list to the MATCH terminal result (Engine.cpp:749-754),
with the documents, alignment data and markers untouched. -/
theorem c1_identity_match (doc : List String) (sec : SectionT) (us : UserSettings)
    (align0 : List AlignmentPair) :
    (lineDiffBlocks doc doc sec sec us).length = 0 ∧
    (runCompare doc doc sec sec us align0 never).map
        (fun r => (r.1, r.2.mainText, r.2.subText, r.2.alignment, r.2.markers))
      = some (CompareResult.COMPARE_MATCH, doc, doc, align0, []) := by
  constructor
  · simp only [lineDiffBlocks]
    rw [if_neg (lt_irrefl _), diffCalc_self]
    rfl
  · unfold runCompare
    simp only [runCompareE]
    rw [computeLineHashes_state_lit, progChk_never_lit]
    simp only [andThenE_ok]
    rw [computeLineHashes_state_lit, progChk_never_lit]
    simp only [andThenE_ok]
    generalize hB : (computeLineHashes never us
        (⟨doc, doc, align0, [], 0⟩ : OutState)
        ⟨ViewSide.main, sec,
          if us.OldFileViewIdIsMain then DiffMask.removed else DiffMask.added⟩).2.2.cnt = b
    have hg : (computeLineHashes never us
          (⟨doc, doc, align0, [], b + 1⟩ : OutState)
          ⟨ViewSide.sub, sec,
            if us.OldFileViewIdIsMain then DiffMask.added else DiffMask.removed⟩).1
        = (computeLineHashes never us (⟨doc, doc, align0, [], 0⟩ : OutState)
          ⟨ViewSide.main, sec,
            if us.OldFileViewIdIsMain then DiffMask.removed else DiffMask.added⟩).1 :=
      computeLineHashes_never_fst_congr us
        ⟨doc, doc, align0, [], b + 1⟩ ⟨doc, doc, align0, [], 0⟩
        ⟨ViewSide.sub, sec,
          if us.OldFileViewIdIsMain then DiffMask.added else DiffMask.removed⟩
        ⟨ViewSide.main, sec,
          if us.OldFileViewIdIsMain then DiffMask.removed else DiffMask.added⟩
        rfl rfl
    rw [hg, runCompareBody_nil]
    rfl

/-! ## Document-text side effects -/

/-- `computeLineHashes` touches only the progress counter of the threaded
state. -/
theorem computeLineHashes_state (cancel : Nat → Bool) (us : UserSettings)
    (st : OutState) (d : DocCmpInfo) :
    (computeLineHashes cancel us st d).2.2
      = ⟨st.mainText, st.subText, st.alignment, st.markers,
          (computeLineHashes cancel us st d).2.2.cnt⟩ :=
  hashLoop_state cancel us (textOf st d.view)
    (adjustSec d.sec (docLineCount (textOf st d.view))).off
    (adjustSec d.sec (docLineCount (textOf st d.view))).len 0 st

/-- A successful checkpoint keeps both documents' text. -/
theorem progChk_ok_texts (cancel : Nat → Bool) (st st' : OutState)
    (h : progChk cancel st = Except.ok st') :
    st'.mainText = st.mainText ∧ st'.subText = st.subText := by
  unfold progChk at h
  split at h
  · cases h
  · cases h
    exact ⟨rfl, rfl⟩

/-- A cancelled checkpoint's abort payload keeps both documents' text. -/
theorem progChk_err_texts (cancel : Nat → Bool) (st st' : OutState)
    (h : progChk cancel st = Except.error (Halt.cancelled st')) :
    st'.mainText = st.mainText ∧ st'.subText = st.subText := by
  unfold progChk at h
  split at h
  · cases h
    exact ⟨rfl, rfl⟩
  · cases h

/-- Pushing an alignment pair keeps the main document's text. -/
theorem pushAlign_mainText (v : ViewSide) (a : ADState) (st : OutState) :
    (pushAlign v a st).mainText = st.mainText := rfl

/-- Pushing an alignment pair keeps the sub document's text. -/
theorem pushAlign_subText (v : ViewSide) (a : ADState) (st : OutState) :
    (pushAlign v a st).subText = st.subText := rfl

/-- The changed-lines sub-loop body only appends alignment pairs and markers:
documents' text passes through. -/
theorem madPairLine_texts (d1 d2 : DocCmpInfo) (bd partner : DiffInfo) (j : Nat)
    (a : ADState) (st : OutState) :
    (madPairLine d1 d2 bd partner j (a, st)).2.mainText = st.mainText ∧
    (madPairLine d1 d2 bd partner j (a, st)).2.subText = st.subText := by
  simp only [madPairLine]
  constructor <;>
    (repeat' split) <;>
    simp [pushAlign]

/-- The changed-lines fold keeps both documents' text. -/
theorem madFold_texts (d1 d2 : DocCmpInfo) (bd partner : DiffInfo) :
    ∀ (l : List Nat) (a : ADState) (st : OutState),
      (l.foldl (fun acc j => madPairLine d1 d2 bd partner j acc) (a, st)).2.mainText
          = st.mainText ∧
      (l.foldl (fun acc j => madPairLine d1 d2 bd partner j acc) (a, st)).2.subText
          = st.subText := by
  intro l
  induction l with
  | nil => intro a st; exact ⟨rfl, rfl⟩
  | cons j t ih =>
    intro a st
    simp only [List.foldl_cons]
    obtain ⟨h1, h2⟩ := madPairLine_texts d1 d2 bd partner j a st
    obtain ⟨h3, h4⟩ := ih (madPairLine d1 d2 bd partner j (a, st)).1
      (madPairLine d1 d2 bd partner j (a, st)).2
    constructor
    · rw [← h1]; exact h3
    · rw [← h2]; exact h4

/-- Processing one block in `markAllDiffs` keeps both documents' text. -/
theorem madBlock_texts (d1 d2 : DocCmpInfo) (blocks : List DiffInfo) (i : Nat)
    (a : ADState) (st : OutState) :
    (madBlock d1 d2 blocks i a st).2.1.mainText = st.mainText ∧
    (madBlock d1 d2 blocks i a st).2.1.subText = st.subText := by
  simp only [madBlock]
  constructor <;>
    (repeat' split) <;>
    simp [pushAlign, madFold_texts]

/-- The `markAllDiffs` block loop keeps both documents' text, in the
successful result as well as in a cancellation payload. -/
theorem madLoop_texts (cancel : Nat → Bool) (d1 d2 : DocCmpInfo)
    (blocks : List DiffInfo) :
    ∀ (fuel i : Nat) (a : ADState) (st : OutState),
      (∀ p, madLoop cancel d1 d2 blocks fuel i a st = Except.ok p →
          p.2.mainText = st.mainText ∧ p.2.subText = st.subText) ∧
      (∀ st', madLoop cancel d1 d2 blocks fuel i a st
            = Except.error (Halt.cancelled st') →
          st'.mainText = st.mainText ∧ st'.subText = st.subText) := by
  intro fuel
  induction fuel with
  | zero =>
    intro i a st
    constructor
    · intro p h
      cases h
      exact ⟨rfl, rfl⟩
    · intro st' h
      cases h
  | succ n ih =>
    intro i a st
    constructor
    · intro p h
      simp only [madLoop] at h
      split at h
      · cases h
        exact ⟨rfl, rfl⟩
      · split at h
        · cases h
        · rename_i st2 heq
          have hts := (ih _ _ _).1 p h
          have h2 := progChk_ok_texts cancel _ _ heq
          have h3 := madBlock_texts d1 d2 blocks i a st
          constructor
          · rw [hts.1, h2.1, pushAlign_mainText, h3.1]
          · rw [hts.2, h2.2, pushAlign_subText, h3.2]
    · intro st' h
      simp only [madLoop] at h
      split at h
      · cases h
      · split at h
        · rename_i e heq
          cases h
          have h2 := progChk_err_texts cancel _ _ heq
          have h3 := madBlock_texts d1 d2 blocks i a st
          constructor
          · rw [h2.1, pushAlign_mainText, h3.1]
          · rw [h2.2, pushAlign_subText, h3.2]
        · rename_i st2 heq
          have hts := (ih _ _ _).2 st' h
          have h2 := progChk_ok_texts cancel _ _ heq
          have h3 := madBlock_texts d1 d2 blocks i a st
          constructor
          · rw [hts.1, h2.1, pushAlign_mainText, h3.1]
          · rw [hts.2, h2.2, pushAlign_subText, h3.2]

/-- A completed `markAllDiffs` keeps both documents' text. -/
theorem markAllDiffs_ok_texts (cancel : Nat → Bool) (d1 d2 : DocCmpInfo)
    (blocks : List DiffInfo) (st out : OutState)
    (h : markAllDiffs cancel d1 d2 blocks st = Except.ok out) :
    out.mainText = st.mainText ∧ out.subText = st.subText := by
  simp only [markAllDiffs] at h
  split at h
  · cases h
  · rename_i r heq
    have h1 := progChk_ok_texts cancel _ _ h
    have h2 := (madLoop_texts cancel d1 d2 blocks blocks.length 0 _ _).1 r heq
    exact ⟨(h1.1.trans h2.1).trans rfl, (h1.2.trans h2.2).trans rfl⟩

/-- A cancelled `markAllDiffs` keeps both documents' text in its payload. -/
theorem markAllDiffs_err_texts (cancel : Nat → Bool) (d1 d2 : DocCmpInfo)
    (blocks : List DiffInfo) (st st' : OutState)
    (h : markAllDiffs cancel d1 d2 blocks st = Except.error (Halt.cancelled st')) :
    st'.mainText = st.mainText ∧ st'.subText = st.subText := by
  simp only [markAllDiffs] at h
  split at h
  · rename_i e heq
    cases h
    have h2 := (madLoop_texts cancel d1 d2 blocks blocks.length 0 _ _).2 st' heq
    exact ⟨h2.1.trans rfl, h2.2.trans rfl⟩
  · rename_i r heq
    have h1 := progChk_err_texts cancel _ _ h
    have h2 := (madLoop_texts cancel d1 d2 blocks blocks.length 0 _ _).1 r heq
    exact ⟨(h1.1.trans h2.1).trans rfl, (h1.2.trans h2.2).trans rfl⟩

/-- The block-pairing loop keeps both documents' text, in the successful
result as well as in a cancellation payload. -/
theorem pairLoop_texts (cancel : Nat → Bool) (tex1 tex2 : List String)
    (us : UserSettings) :
    ∀ (fuel i : Nat) (blocks : List DiffInfo) (st : OutState),
      (∀ p, pairLoop cancel tex1 tex2 us fuel i blocks st = Except.ok p →
          p.2.mainText = st.mainText ∧ p.2.subText = st.subText) ∧
      (∀ st', pairLoop cancel tex1 tex2 us fuel i blocks st
            = Except.error (Halt.cancelled st') →
          st'.mainText = st.mainText ∧ st'.subText = st.subText) := by
  intro fuel
  induction fuel with
  | zero =>
    intro i blocks st
    constructor
    · intro p h
      cases h
      exact ⟨rfl, rfl⟩
    · intro st' h
      cases h
  | succ n ih =>
    intro i blocks st
    constructor
    · intro p h
      simp only [pairLoop] at h
      split at h
      · cases h
      · split at h
        · cases h
        · rename_i st2 heq
          have hts := (ih _ _ _).1 p h
          have h2 := progChk_ok_texts cancel _ _ heq
          exact ⟨hts.1.trans h2.1, hts.2.trans h2.2⟩
    · intro st' h
      simp only [pairLoop] at h
      split at h
      · cases h
      · split at h
        · rename_i e heq
          cases h
          exact progChk_err_texts cancel _ _ heq
        · rename_i st2 heq
          have hts := (ih _ _ _).2 st' h
          have h2 := progChk_ok_texts cancel _ _ heq
          exact ⟨hts.1.trans h2.1, hts.2.trans h2.2⟩

/-- Case split over the blank-line-workaround state of the compare tail. -/
theorem runCompareBody_ite_texts (g1 g2 : List Nat) (e1 e2 : DocCmpInfo)
    (st0 X : OutState)
    (hm : X.mainText
        = (if (¬((diffCalc g1 g2).headD dBlock).type = DiffType.DIFF_MATCH
              ∧ (e1.sec.off = 0 ∨ e2.sec.off = 0)) then
            ({ st0 with
                mainText := "" :: st0.mainText,
                subText := "" :: st0.subText } : OutState)
          else st0).mainText)
    (hs : X.subText
        = (if (¬((diffCalc g1 g2).headD dBlock).type = DiffType.DIFF_MATCH
              ∧ (e1.sec.off = 0 ∨ e2.sec.off = 0)) then
            ({ st0 with
                mainText := "" :: st0.mainText,
                subText := "" :: st0.subText } : OutState)
          else st0).subText) :
    (X.mainText = st0.mainText ∧ X.subText = st0.subText) ∨
    (X.mainText = "" :: st0.mainText ∧ X.subText = "" :: st0.subText) := by
  by_cases hcond : ¬((diffCalc g1 g2).headD dBlock).type = DiffType.DIFF_MATCH
      ∧ (e1.sec.off = 0 ∨ e2.sec.off = 0)
  · right
    rw [if_pos hcond] at hm hs
    exact ⟨hm, hs⟩
  · left
    rw [if_neg hcond] at hm hs
    exact ⟨hm, hs⟩

/-- The compare tail either keeps both documents' text or prepends one blank
line to each (the workaround, Engine.cpp:756-778) — successful exit. -/
theorem runCompareBody_ok_texts (us : UserSettings) (cancel : Nat → Bool)
    (e1 e2 : DocCmpInfo) (g1 g2 : List Nat) (st0 : OutState)
    (r : CompareResult) (out : OutState)
    (h : runCompareBody us cancel e1 e2 g1 g2 st0 = Except.ok (r, out)) :
    (out.mainText = st0.mainText ∧ out.subText = st0.subText) ∨
    (out.mainText = "" :: st0.mainText ∧ out.subText = "" :: st0.subText) := by
  simp only [runCompareBody] at h
  split at h
  · cases h
    exact Or.inl ⟨rfl, rfl⟩
  · split at h
    · cases h
    · rename_i st3 heq3
      split at h
      · cases h
      · rename_i pr hpair
        split at h
        · cases h
        · rename_i st4 heq4
          split at h
          · cases h
          · rename_i st5 hmad
            cases h
            have t5 := markAllDiffs_ok_texts cancel _ _ _ _ _ hmad
            have t4 := progChk_ok_texts cancel _ _ heq4
            have t3 := (pairLoop_texts cancel _ _ us _ _ _ _).1 pr hpair
            have t2 := progChk_ok_texts cancel _ _ heq3
            exact runCompareBody_ite_texts g1 g2 e1 e2 st0 _
              (((t5.1.trans t4.1).trans t3.1).trans t2.1)
              (((t5.2.trans t4.2).trans t3.2).trans t2.2)

/-- The compare tail either keeps both documents' text or prepends one blank
line to each — cancellation payload. -/
theorem runCompareBody_err_texts (us : UserSettings) (cancel : Nat → Bool)
    (e1 e2 : DocCmpInfo) (g1 g2 : List Nat) (st0 st' : OutState)
    (h : runCompareBody us cancel e1 e2 g1 g2 st0
      = Except.error (Halt.cancelled st')) :
    (st'.mainText = st0.mainText ∧ st'.subText = st0.subText) ∨
    (st'.mainText = "" :: st0.mainText ∧ st'.subText = "" :: st0.subText) := by
  simp only [runCompareBody] at h
  split at h
  · cases h
  · split at h
    · rename_i e heq
      cases h
      have t := progChk_err_texts cancel _ _ heq
      exact runCompareBody_ite_texts g1 g2 e1 e2 st0 _ t.1 t.2
    · rename_i st3 heq3
      split at h
      · rename_i e hpair
        cases h
        have t3 := (pairLoop_texts cancel _ _ us _ _ _ _).2 st' hpair
        have t2 := progChk_ok_texts cancel _ _ heq3
        exact runCompareBody_ite_texts g1 g2 e1 e2 st0 _
          (t3.1.trans t2.1) (t3.2.trans t2.2)
      · rename_i pr hpair
        split at h
        · rename_i e heq4
          cases h
          have t4 := progChk_err_texts cancel _ _ heq4
          have t3 := (pairLoop_texts cancel _ _ us _ _ _ _).1 pr hpair
          have t2 := progChk_ok_texts cancel _ _ heq3
          exact runCompareBody_ite_texts g1 g2 e1 e2 st0 _
            ((t4.1.trans t3.1).trans t2.1) ((t4.2.trans t3.2).trans t2.2)
        · rename_i st4 heq4
          split at h
          · rename_i e hmad
            cases h
            have t5 := markAllDiffs_err_texts cancel _ _ _ _ _ hmad
            have t4 := progChk_ok_texts cancel _ _ heq4
            have t3 := (pairLoop_texts cancel _ _ us _ _ _ _).1 pr hpair
            have t2 := progChk_ok_texts cancel _ _ heq3
            exact runCompareBody_ite_texts g1 g2 e1 e2 st0 _
              (((t5.1.trans t4.1).trans t3.1).trans t2.1)
              (((t5.2.trans t4.2).trans t3.2).trans t2.2)
          · cases h

/-- A successful compare run either keeps both documents' text or prepends
one blank line to each. -/
theorem runCompareE_ok_texts (mainText subText : List String)
    (mainSec subSec : SectionT) (us : UserSettings) (align0 : List AlignmentPair)
    (cancel : Nat → Bool) (r : CompareResult) (out : OutState)
    (h : runCompareE mainText subText mainSec subSec us align0 cancel
      = Except.ok (r, out)) :
    (out.mainText = mainText ∧ out.subText = subText) ∨
    (out.mainText = "" :: mainText ∧ out.subText = "" :: subText) := by
  simp only [runCompareE, andThenE] at h
  split at h
  · cases h
  · rename_i st1 heq1
    split at h
    · cases h
    · rename_i st2 heq2
      have hb := runCompareBody_ok_texts _ _ _ _ _ _ _ _ _ h
      have t2 := progChk_ok_texts cancel _ _ heq2
      rw [computeLineHashes_state] at t2
      have t1 := progChk_ok_texts cancel _ _ heq1
      rw [computeLineHashes_state] at t1
      have t2m : st2.mainText = st1.mainText := t2.1.trans rfl
      have t2s : st2.subText = st1.subText := t2.2.trans rfl
      have t1m : st1.mainText = mainText := t1.1.trans rfl
      have t1s : st1.subText = subText := t1.2.trans rfl
      rcases hb with ⟨hbm, hbs⟩ | ⟨hbm, hbs⟩
      · exact Or.inl ⟨(hbm.trans t2m).trans t1m, (hbs.trans t2s).trans t1s⟩
      · rw [t2m, t1m] at hbm
        rw [t2s, t1s] at hbs
        exact Or.inr ⟨hbm, hbs⟩

/-- A cancelled compare run's payload either keeps both documents' text or
has one blank line prepended to each. -/
theorem runCompareE_err_texts (mainText subText : List String)
    (mainSec subSec : SectionT) (us : UserSettings) (align0 : List AlignmentPair)
    (cancel : Nat → Bool) (st' : OutState)
    (h : runCompareE mainText subText mainSec subSec us align0 cancel
      = Except.error (Halt.cancelled st')) :
    (st'.mainText = mainText ∧ st'.subText = subText) ∨
    (st'.mainText = "" :: mainText ∧ st'.subText = "" :: subText) := by
  simp only [runCompareE, andThenE] at h
  split at h
  · rename_i e heq1
    cases h
    have t := progChk_err_texts cancel _ _ heq1
    rw [computeLineHashes_state] at t
    exact Or.inl ⟨t.1.trans rfl, t.2.trans rfl⟩
  · rename_i st1 heq1
    have t1 := progChk_ok_texts cancel _ _ heq1
    rw [computeLineHashes_state] at t1
    have t1m : st1.mainText = mainText := t1.1.trans rfl
    have t1s : st1.subText = subText := t1.2.trans rfl
    split at h
    · rename_i e heq2
      cases h
      have t := progChk_err_texts cancel _ _ heq2
      rw [computeLineHashes_state] at t
      exact Or.inl ⟨(t.1.trans rfl).trans t1m, (t.2.trans rfl).trans t1s⟩
    · rename_i st2 heq2
      have hb := runCompareBody_err_texts _ _ _ _ _ _ _ _ h
      have t2 := progChk_ok_texts cancel _ _ heq2
      rw [computeLineHashes_state] at t2
      have t2m : st2.mainText = st1.mainText := t2.1.trans rfl
      have t2s : st2.subText = st1.subText := t2.2.trans rfl
      rcases hb with ⟨hbm, hbs⟩ | ⟨hbm, hbs⟩
      · exact Or.inl ⟨(hbm.trans t2m).trans t1m, (hbs.trans t2s).trans t1s⟩
      · rw [t2m, t1m] at hbm
        rw [t2s, t1s] at hbs
        exact Or.inr ⟨hbm, hbs⟩

/-- C6 (amended): the invocation's side effects on the documents are NOT
limited to progress signalling — but they are limited to the blank-line
workaround (Engine.cpp:756-778): for every input pair and every settings
combination, each document's text is either unchanged or has exactly one
blank line prepended, and the two documents change together. -/
theorem c6_text_effects (mainText subText : List String) (mainSec subSec : SectionT)
    (us : UserSettings) (align0 : List AlignmentPair) (cancel : Nat → Bool)
    (r : CompareResult) (out : OutState)
    (h : runCompare mainText subText mainSec subSec us align0 cancel
      = some (r, out)) :
    (out.mainText = mainText ∧ out.subText = subText) ∨
    (out.mainText = "" :: mainText ∧ out.subText = "" :: subText) := by
  unfold runCompare at h
  split at h
  · rename_i p heq
    cases h
    exact runCompareE_ok_texts _ _ _ _ _ _ _ _ _ heq
  · rename_i st heq
    cases h
    exact runCompareE_err_texts _ _ _ _ _ _ _ _ heq
  · cases h

/-- Witness for C6's amended theorem: comparing `["a"]` with `["b"]` hits the
blank-line branch — both documents leave the run with one blank line
prepended. -/
theorem c6_text_effects_witness :
    (runCompare ["a"] ["b"] ⟨0, 0⟩ ⟨0, 0⟩ exSettings [] never
      = some (CompareResult.COMPARE_MISMATCH,
        ⟨["", "a"], ["", "b"],
          [⟨⟨1, DiffMask.removed⟩, ⟨1, DiffMask.added⟩⟩,
            ⟨⟨2, DiffMask.noMask⟩, ⟨2, DiffMask.noMask⟩⟩],
          [MarkEvent.markerAdd ViewSide.main 1 DiffMask.removed,
            MarkEvent.markerAdd ViewSide.sub 1 DiffMask.added], 10⟩))
    ∧ (((⟨["", "a"], ["", "b"], [], [], 0⟩ : OutState).mainText = ["a"]
          ∧ (⟨["", "a"], ["", "b"], [], [], 0⟩ : OutState).subText = ["b"])
        ∨ ((⟨["", "a"], ["", "b"], [], [], 0⟩ : OutState).mainText = "" :: ["a"]
          ∧ (⟨["", "a"], ["", "b"], [], [], 0⟩ : OutState).subText = "" :: ["b"])) :=
  ⟨by decide,
    by
      have := c6_text_effects ["a"] ["b"] ⟨0, 0⟩ ⟨0, 0⟩ exSettings [] never
        CompareResult.COMPARE_MISMATCH
        ⟨["", "a"], ["", "b"],
          [⟨⟨1, DiffMask.removed⟩, ⟨1, DiffMask.added⟩⟩,
            ⟨⟨2, DiffMask.noMask⟩, ⟨2, DiffMask.noMask⟩⟩],
          [MarkEvent.markerAdd ViewSide.main 1 DiffMask.removed,
            MarkEvent.markerAdd ViewSide.sub 1 DiffMask.added], 10⟩
        (by decide)
      exact this⟩

end CompareEngine
